import Mathlib

/-!
Verification of the provider execution loop of sim-ai-workflow-builder.

This file shallowly embeds the two vendor adapters
(`src/sim/providers/anthropic/index.ts` and `src/sim/providers/deepseek/index.ts`)
as executable Lean functions.  Effects are made explicit:

* the wall clock (`Date.now()`) is a counter threaded through a small state,
* the vendor SDK, the external tool-execution capability (`executeTool`) and
  the JavaScript `JSON.parse` builtin are supplied by an `Env` record of
  oracles (they are external collaborators of the core under specification),
* thrown JavaScript errors are `Except` values; the provider-level error that
  escapes `executeRequest` distinguishes errors raised before the outer
  `try` (no timing attached) from errors wrapped by the outer `catch`
  (timing attached),
* every vendor call is logged (payload, in call order) so that theorems can
  talk about how many network calls were issued and with which payloads.

String helpers are implemented over `List Char` so that all definitions
evaluate inside the kernel.
-/

/-- JS-style whitespace test for the characters relevant here (`String.prototype.trim`). -/
def isWsChar (c : Char) : Bool :=
  c = ' ' || c = '\n' || c = '\t' || c = '\r'

/-- Drop leading whitespace from a character list. -/
def dropWs (l : List Char) : List Char :=
  match l with
  | [] => []
  | c :: rest => if isWsChar c then dropWs rest else c :: rest

/-- Model of `String.prototype.trim`. -/
def jsTrim (s : String) : String :=
  String.mk ((dropWs (dropWs s.data.reverse).reverse))

/-- Does `needle` occur as a contiguous substring of `hay`? -/
def containsSub (hay needle : List Char) : Bool :=
  match hay with
  | [] => needle.isEmpty
  | _ :: t => needle.isPrefixOf hay || containsSub t needle

/-- Substring test on strings (kernel-evaluable). -/
def strContains (hay needle : String) : Bool :=
  containsSub hay.data needle.data

/-- Character membership in a character list. -/
def hasCharL (l : List Char) (c : Char) : Bool :=
  match l with
  | [] => false
  | x :: rest => x = c || hasCharL rest c

/-- Does the string contain the character `c`? -/
def strHasChar (s : String) (c : Char) : Bool :=
  hasCharL s.data c

/-- Index of the first occurrence of `c`. -/
def firstIdxOf (l : List Char) (c : Char) : Option Nat :=
  match l with
  | [] => none
  | x :: rest =>
    if x = c then some 0 else (firstIdxOf rest c).map (· + 1)

/-- Index of the last occurrence of `c`. -/
def lastIdxOf (l : List Char) (c : Char) : Option Nat :=
  match l with
  | [] => none
  | x :: rest =>
    match lastIdxOf rest c with
    | some i => some (i + 1)
    | none => if x = c then some 0 else none

/-- Join a list of strings with separator `sep` (model of `Array.prototype.join`). -/
def joinSep (sep : String) : List String → String
  | [] => ""
  | [s] => s
  | s :: rest => s ++ sep ++ joinSep sep rest

/-- JSON string escaping for the characters appearing in this development
(quote, backslash, newline), as performed by `JSON.stringify` on strings. -/
def jsonEscape (l : List Char) : List Char :=
  match l with
  | [] => []
  | c :: rest =>
    if c = '"' then '\\' :: '"' :: jsonEscape rest
    else if c = '\\' then '\\' :: '\\' :: jsonEscape rest
    else if c = '\n' then '\\' :: 'n' :: jsonEscape rest
    else c :: jsonEscape rest

/-- `JSON.stringify` of a string value. -/
def jsonQuote (s : String) : String :=
  String.mk ('"' :: jsonEscape s.data ++ ['"'])

/-- Tool arguments: a JSON object, kept as an association list of fields
(the values are opaque to the loop; only the tool-execution oracle reads them). -/
abbrev Args := List (String × String)

/-- JS object spread `{ ...a, ...b }`: fields of `b` override fields of `a`. -/
def spreadMerge (a b : Args) : Args :=
  a.filter (fun kv => !(b.map Prod.fst).contains kv.1) ++ b

/-- Result shape of the external tool-execution capability `executeTool`. -/
structure ToolResult where
  success : Bool
  output : String
deriving DecidableEq, Repr

/-- One property of a JSON-schema `properties` map. -/
structure SchemaProp where
  type : Option String := none
  description : Option String := none
deriving DecidableEq, Repr

/-- A (fragment of a) JSON schema as used by the adapters. -/
structure Schema where
  properties : Option (List (String × SchemaProp)) := none
  required : Option (List String) := none
deriving DecidableEq, Repr

/-- A `function_call` descriptor on a prior turn. -/
structure FunctionCall where
  name : String
  arguments : String
deriving DecidableEq, Repr

/-- A provider-agnostic prior turn of the request. -/
structure Msg where
  role : String
  name : Option String := none
  content : Option String := none
  function_call : Option FunctionCall := none
deriving DecidableEq, Repr

/-- A tool definition of the request.  `usageControl` is the per-tool usage
constraint consumed by the external tool-usage policy engine
(`prepareToolsWithUsageControl`, which lives outside `src/`). -/
structure ToolDef where
  id : String
  description : String := ""
  params : Args := []
  parameters : Schema := {}
  usageControl : Option String := none
deriving DecidableEq, Repr

/-- The provider-agnostic request (`ProviderRequest`).  The sampling
temperature is elided (floating point, never branched on by the adapters). -/
structure Req where
  apiKey : String := ""
  model : Option String := none
  systemPrompt : Option String := none
  context : Option String := none
  messages : Option (List Msg) := none
  tools : Option (List ToolDef) := none
  maxTokens : Option Nat := none
  responseFormat : Option Schema := none
deriving DecidableEq, Repr

/-- Accumulated token usage. -/
structure Tokens where
  prompt : Nat
  completion : Nat
  total : Nat
deriving DecidableEq, Repr

/-- A recorded tool call of the response envelope. -/
structure ToolCallRecord where
  name : String
  arguments : Args
  startTime : Nat
  endTime : Nat
  duration : Nat
  result : String
deriving DecidableEq, Repr

/-- One timed span, tagged `"model"` or `"tool"`. -/
structure TimeSegment where
  type : String
  name : String
  startTime : Nat
  endTime : Nat
  duration : Nat
deriving DecidableEq, Repr

/-- Timing summary of a successful envelope. -/
structure Timing where
  startTime : Nat
  endTime : Nat
  duration : Nat
  modelTime : Nat
  toolsTime : Nat
  firstResponseTime : Nat
  iterations : Nat
  timeSegments : List TimeSegment
deriving DecidableEq, Repr

/-- Timing attached to an error by the outer `catch`. -/
structure ErrTiming where
  startTime : Nat
  endTime : Nat
  duration : Nat
deriving DecidableEq, Repr

/-- The error escaping `executeRequest`: either a plain JS error raised
before the outer `try` (no timing), or the enhanced error built by the
outer `catch` (timing attached). -/
inductive PErr where
  | plain (msg : String)
  | withTiming (msg : String) (timing : ErrTiming)
deriving DecidableEq, Repr

/-- Effect state threaded through one `executeRequest` run: the `Date.now()`
counter and the log of payloads sent to the vendor, in call order. -/
structure EffSt (Payload : Type) where
  clock : Nat
  calls : List Payload

/-- `Date.now()`. -/
def tick {P : Type} (st : EffSt P) : Nat × EffSt P :=
  (st.clock, { st with clock := st.clock + 1 })

/-- Initial effect state. -/
def initSt {P : Type} : EffSt P := { clock := 0, calls := [] }

namespace Anth

/-! Shallow embedding of `src/sim/providers/anthropic/index.ts` (`executeRequest`). -/

/-- One Anthropic content block (text part, tool invocation, or tool result). -/
inductive ContentBlock where
  | text (text : String)
  | tool_use (id : String) (name : String) (input : Args)
  | tool_result (tool_use_id : String) (content : String)
deriving DecidableEq, Repr

/-- An Anthropic wire message.  In the source the context message carries a
plain string; the model uniformly uses a one-element text block list. -/
structure AMessage where
  role : String
  content : List ContentBlock
deriving DecidableEq, Repr

/-- Anthropic usage block of a response. -/
structure AUsage where
  input_tokens : Nat
  output_tokens : Nat
deriving DecidableEq, Repr

/-- A vendor response (`anthropic.messages.create` result). -/
structure Response where
  content : List ContentBlock
  usage : Option AUsage := none
deriving DecidableEq, Repr

/-- An Anthropic-format tool schema. -/
structure ATool where
  name : String
  description : String
  input_schema : Schema
deriving DecidableEq, Repr

/-- The `tool_choice` values the adapter produces: the strings `'auto'` and
`'none'`, or the object `\x7btype: 'tool', name\x7d` (constructor `tool`). -/
inductive ToolChoiceA where
  | auto
  | noTool
  | tool (name : String)
deriving DecidableEq, Repr

/-- JS `typeof tool_choice === 'object'` on an optional tool choice:
true exactly for the forced-tool object. -/
def isToolChoiceObject (o : Option ToolChoiceA) : Bool :=
  match o with
  | some (.tool _) => true
  | _ => false

/-- Name carried by a forced tool-choice object, if any. -/
def forcedNameOf (o : Option ToolChoiceA) : Option String :=
  match o with
  | some (.tool n) => some n
  | _ => none

/-- The request payload sent to the vendor.  The floating-point temperature
field is elided; `max_tokens` keeps the `parseInt(...) || 1024` fallback. -/
structure Payload where
  model : String
  messages : List AMessage
  system : String
  max_tokens : Nat
  tools : Option (List ATool) := none
  tool_choice : Option ToolChoiceA := none
deriving DecidableEq, Repr

/-- External collaborators of the adapter: the vendor SDK (indexed by the
number of calls already issued), the tool-execution capability, and the JS
`JSON.parse` builtin.  An `Except.error` models a thrown exception. -/
structure Env where
  vendor : Nat → Except String Response
  toolExec : String → Args → Except String ToolResult
  parseJson : String → Except String Args

/-- Effect state for the Anthropic adapter. -/
abbrev St := EffSt Payload

/-- Issue one vendor call: log the payload and consult the vendor oracle. -/
def callVendor (env : Env) (p : Payload) (st : St) : Except String Response × St :=
  (env.vendor st.calls.length, { st with calls := st.calls ++ [p] })

/-- The response envelope (`ProviderResponse`) of the Anthropic adapter. -/
structure Envelope where
  content : String
  model : String
  tokens : Tokens
  toolCalls : Option (List ToolCallRecord) := none
  toolResults : Option (List String) := none
  timing : Timing
deriving DecidableEq, Repr

/-- Model id resolution `request.model || 'claude-3-7-sonnet-20250219'`
(the empty string is falsy in JS). -/
def modelOrDefault (req : Req) : String :=
  match req.model with
  | some m => if m = "" then "claude-3-7-sonnet-20250219" else m
  | none => "claude-3-7-sonnet-20250219"

/-- Resolution of `parseInt(String(request.maxTokens)) || 1024`
(absent and `0` both fall back to 1024, since `0` is falsy). -/
def maxTokensOrDefault (req : Req) : Nat :=
  match req.maxTokens with
  | some m => if m = 0 then 1024 else m
  | none => 1024

/-- Modelled from the spec: `prepareToolsWithUsageControl` lives in
`src/sim/providers/utils.ts`, which is not under `src/`.  Per spec section 2 the
policy engine filters the tool set by the per-tool usage constraints and
returns the initial tool-choice directive: tools constrained `'none'` are
removed, tools constrained `'force'` (in declared order) are the forced
tools, and the directive forces the first forced tool when one exists,
otherwise it is `'auto'`. -/
structure PreparedTools where
  tools : List ATool
  toolChoice : ToolChoiceA
  forcedTools : List String
deriving Repr

/-- Modelled from the spec: see `PreparedTools`. -/
def prepareToolsWithUsageControl (vendorTools : List ATool) (reqTools : List ToolDef) :
    PreparedTools :=
  let allowedIds := (reqTools.filter (fun t => t.usageControl ≠ some "none")).map (fun t => t.id)
  let filtered := vendorTools.filter (fun vt => allowedIds.contains vt.name)
  let forced := (reqTools.filter (fun t => t.usageControl = some "force")).map (fun t => t.id)
  { tools := filtered
    toolChoice := match forced with
      | f :: _ => .tool f
      | [] => .auto
    forcedTools := forced }

/-- Modelled from the spec: `trackForcedToolUsage` lives in
`src/sim/providers/utils.ts`, which is not under `src/`.  Per spec section 4.2 a
forced tool counts as used the first time its name appears among the
response's tool invocations while its directive is active; the function
returns whether the active forced tool fired and the updated used set. -/
def trackForcedToolUsage (toolCallNames : List String) (forcedName : Option String)
    (usedForcedTools : List String) : Bool × List String :=
  match forcedName with
  | some n =>
    if toolCallNames.contains n then
      (true, if usedForcedTools.contains n then usedForcedTools else usedForcedTools ++ [n])
    else (false, usedForcedTools)
  | none => (false, usedForcedTools)

/-- Normalization of the prior turns (source lines 47-80).  A `function`
role becomes a user/tool_result message; a turn with a `function_call`
becomes an assistant/tool_use message whose arguments go through
`JSON.parse` (which may throw) and whose id appends `Date.now()`; any other
turn maps assistant to assistant and everything else to user. -/
def normalizeMsgs (env : Env) : List Msg → St → Except String (List AMessage) × St
  | [], st => (.ok [], st)
  | m :: rest, st =>
    if m.role == "function" then
      let msg : AMessage :=
        { role := "user", content := [.tool_result (m.name.getD "") (m.content.getD "")] }
      match normalizeMsgs env rest st with
      | (.ok tail, st) => (.ok (msg :: tail), st)
      | (.error e, st) => (.error e, st)
    else
      match m.function_call with
      | some fc =>
        let (t, st) := tick st
        let toolUseId := fc.name ++ "-" ++ toString t
        match env.parseJson fc.arguments with
        | .error e => (.error e, st)
        | .ok args =>
          let msg : AMessage :=
            { role := "assistant", content := [.tool_use toolUseId fc.name args] }
          match normalizeMsgs env rest st with
          | (.ok tail, st) => (.ok (msg :: tail), st)
          | (.error e, st) => (.error e, st)
      | none =>
        let msg : AMessage :=
          { role := if m.role == "assistant" then "assistant" else "user"
            content := match m.content with
              | some c => if c = "" then [] else [.text c]
              | none => [] }
        match normalizeMsgs env rest st with
        | (.ok tail, st) => (.ok (msg :: tail), st)
        | (.error e, st) => (.error e, st)

/-- Placeholder value for one schema property type (source lines 152-174);
note the placeholders are the *strings* `'"value"'`, `'0'`, `'true'`, `'[]'`,
`'\x7b\x7d'`. -/
def exampleValue (propType : String) : String :=
  match propType with
  | "string" => "\"value\""
  | "number" => "0"
  | "boolean" => "true"
  | "array" => "[]"
  | "object" => "\x7b\x7d"
  | _ => "\"value\""

/-- Resolution of `prop.type || 'string'`. -/
def propTypeOf (p : SchemaProp) : String :=
  match p.type with
  | some t => if t = "" then "string" else t
  | none => "string"

/-- Resolution of `prop.description ? ': ' + prop.description : ''`. -/
def descriptionPart (p : SchemaProp) : String :=
  match p.description with
  | some d => if d = "" then "" else ": " ++ d
  | none => ""

/-- Model of `JSON.stringify(obj, null, 2)` for a flat object whose values
are strings (which is what the template built at source lines 150-180 is). -/
def jsonStringifyIndent2 (entries : List (String × String)) : String :=
  match entries with
  | [] => "\x7b\x7d"
  | _ =>
    "\x7b\n" ++
      joinSep ",\n" (entries.map (fun kv => "  " ++ jsonQuote kv.1 ++ ": " ++ jsonQuote kv.2)) ++
      "\n\x7d"

/-- The structured-output instruction block (source lines 141-206): the JSON
template rendered by `JSON.stringify(.., null, 2)`, the field-description
listing, and the numbered prohibitions. -/
def buildSchemaInstructions (schema : Schema) : String :=
  match schema.properties with
  | none => ""
  | some props =>
    let jsonTemplateStr :=
      jsonStringifyIndent2 (props.map (fun kp => (kp.1, exampleValue (propTypeOf kp.2))))
    let fieldDescriptions :=
      joinSep "\n" (props.map (fun kp =>
        kp.1 ++ " (" ++ propTypeOf kp.2 ++ ")" ++ descriptionPart kp.2))
    "\nIMPORTANT RESPONSE FORMAT INSTRUCTIONS:\n" ++
    "1. Your response must be EXACTLY in this format, with no additional fields:\n" ++
    jsonTemplateStr ++
    "\n\nField descriptions:\n" ++
    fieldDescriptions ++
    "\n\n2. DO NOT include any explanatory text before or after the JSON\n" ++
    "3. DO NOT wrap the response in an array\n" ++
    "4. DO NOT add any fields not specified in the schema\n" ++
    "5. Your response MUST be valid JSON and include all the specified fields with their correct types"

/-- Setup produced before the outer `try` (source lines 17-227):
the normalized message history, the initial payload and the forced tools. -/
structure Setup where
  messages : List AMessage
  payload : Payload
  forcedTools : List String
deriving Repr

/-- Build the setup (everything before the timer starts).  Mirrors source
lines 32-245: context turn, prior-turn normalization, empty-history
fallback, tool translation and usage control, structured-output
instructions, payload assembly, forced-tool list. -/
def buildSetup (env : Env) (req : Req) (st : St) : Except String Setup × St :=
  let systemPrompt0 := req.systemPrompt.getD ""
  let contextMsgs : List AMessage :=
    match req.context with
    | some ctx => if ctx = "" then [] else [{ role := "user", content := [.text ctx] }]
    | none => []
  match normalizeMsgs env (req.messages.getD []) st with
  | (.error e, st) => (.error e, st)
  | (.ok historyMsgs, st) =>
    let messages := contextMsgs ++ historyMsgs
    -- empty-history fallback (lines 82-90): system prompt becomes a user turn
    let (messages, systemPrompt) :=
      if messages.isEmpty then
        ([{ role := "user",
            content := [.text (if systemPrompt0 = "" then "Hello" else systemPrompt0)] }],
          "")
      else (messages, systemPrompt0)
    -- tool translation (lines 93-103)
    let anthropicTools : Option (List ATool) :=
      match req.tools with
      | some ts => if ts.isEmpty then none else
          some (ts.map (fun t =>
            { name := t.id, description := t.description, input_schema := t.parameters }))
      | none => none
    -- usage control (lines 106-138); with the inductive tool-choice type the
    -- case analysis of lines 120-136 collapses to taking the prepared choice
    let (anthropicTools, toolChoice) :=
      match anthropicTools with
      | some ts =>
        let p := prepareToolsWithUsageControl ts (req.tools.getD [])
        if p.tools.isEmpty then (some ts, ToolChoiceA.auto) else (some p.tools, p.toolChoice)
      | none => (none, ToolChoiceA.auto)
    -- structured output instructions (lines 141-209); the model folds the
    -- `responseFormat.schema || responseFormat` resolution into the field
    let systemPrompt :=
      match req.responseFormat with
      | some rf => systemPrompt ++ buildSchemaInstructions rf
      | none => systemPrompt
    let payload : Payload :=
      { model := modelOrDefault req
        messages := messages
        system := systemPrompt
        max_tokens := maxTokensOrDefault req
        tools := anthropicTools
        tool_choice :=
          match anthropicTools with
          | some _ => if toolChoice = ToolChoiceA.auto then none else some toolChoice
          | none => none }
    -- forced tools (lines 241-244), recomputed from the filtered tool list
    let forcedTools :=
      match anthropicTools with
      | some ts => (prepareToolsWithUsageControl ts (req.tools.getD [])).forcedTools
      | none => []
    (.ok { messages := messages, payload := payload, forcedTools := forcedTools }, st)

/-- A tool invocation extracted from a response's content blocks. -/
structure ToolUseInfo where
  id : String
  name : String
  input : Args
deriving DecidableEq, Repr

/-- The `content.filter(item => item.type === 'tool_use')` extraction. -/
def toolUsesOf (r : Response) : List ToolUseInfo :=
  r.content.filterMap (fun b =>
    match b with
    | .tool_use i n a => some ⟨i, n, a⟩
    | _ => none)

/-- Names of the tool invocations of a response. -/
def toolNamesOf (r : Response) : List String :=
  (toolUsesOf r).map (fun tu => tu.name)

/-- The text of a response: text blocks joined with newlines (lines 253-258). -/
def textOf (r : Response) : String :=
  joinSep "\n" (r.content.filterMap (fun b =>
    match b with
    | .text s => some s
    | _ => none))

/-- Tokens of the first response (`usage?.input_tokens || 0` etc.). -/
def initTokens (u : Option AUsage) : Tokens :=
  match u with
  | some u => { prompt := u.input_tokens, completion := u.output_tokens,
                total := u.input_tokens + u.output_tokens }
  | none => { prompt := 0, completion := 0, total := 0 }

/-- Token accumulation of lines 502-507 (`if (currentResponse.usage)`). -/
def addUsage (t : Tokens) (u : Option AUsage) : Tokens :=
  match u with
  | some u => { prompt := t.prompt + u.input_tokens
                completion := t.completion + u.output_tokens
                total := t.total + (u.input_tokens + u.output_tokens) }
  | none => t

/-- The iteration cap (`MAX_ITERATIONS`, line 271). -/
def MAX_ITERATIONS : Nat := 10

/-- Mutable accumulators owned by the execution loop. -/
structure LoopSt where
  currentResponse : Response
  content : String
  tokens : Tokens
  toolCalls : List ToolCallRecord
  toolResults : List String
  currentMessages : List AMessage
  iterationCount : Nat
  hasUsedForcedTool : Bool
  usedForcedTools : List String
  modelTime : Nat
  toolsTime : Nat
  timeSegments : List TimeSegment
deriving Repr

/-- Processing of one tool invocation (body of the `for` loop, lines
332-397).  An unresolved tool id, a throwing execution, or `success=false`
all leave the accumulators untouched; a successful execution appends the
time segment, result, record and the tool_use/tool_result message pair
(the `Math.random` suffix of the correlation id is elided). -/
def processToolUse (env : Env) (req : Req) (tu : ToolUseInfo) (ls : LoopSt) (st : St) :
    LoopSt × St :=
  let toolName := tu.name
  let toolArgs := tu.input
  match (req.tools.getD []).find? (fun t => t.id == toolName) with
  | none => (ls, st)
  | some tool =>
    let (toolCallStartTime, st) := tick st
    let mergedArgs := spreadMerge tool.params toolArgs
    match env.toolExec toolName mergedArgs with
    | .error _ => (ls, st)
    | .ok result =>
      let (toolCallEndTime, st) := tick st
      let toolCallDuration := toolCallEndTime - toolCallStartTime
      if !result.success then (ls, st)
      else
        let seg : TimeSegment :=
          { type := "tool", name := toolName, startTime := toolCallStartTime,
            endTime := toolCallEndTime, duration := toolCallDuration }
        let record : ToolCallRecord :=
          { name := toolName, arguments := toolArgs, startTime := toolCallStartTime,
            endTime := toolCallEndTime, duration := toolCallDuration, result := result.output }
        let (tid, st) := tick st
        let toolUseId := toolName ++ "-" ++ toString tid
        let assistantMsg : AMessage :=
          { role := "assistant", content := [.tool_use toolUseId toolName toolArgs] }
        let userMsg : AMessage :=
          { role := "user", content := [.tool_result toolUseId (jsonQuote result.output)] }
        ({ ls with
            timeSegments := ls.timeSegments ++ [seg]
            toolResults := ls.toolResults ++ [result.output]
            toolCalls := ls.toolCalls ++ [record]
            currentMessages := ls.currentMessages ++ [assistantMsg, userMsg] }, st)

/-- Process a whole batch of tool invocations in vendor order. -/
def processToolUses (env : Env) (req : Req) : List ToolUseInfo → LoopSt → St → LoopSt × St
  | [], ls, st => (ls, st)
  | tu :: rest, ls, st =>
    let (ls, st) := processToolUse env req tu ls st
    processToolUses env req rest ls st

/-- Re-evaluation of the tool choice before the next vendor call (lines
409-436): after a forced tool fired, force the first not-yet-used forced
tool, or drop `tool_choice` once all fired; otherwise keep the payload's
original choice. -/
def nextToolChoice (payload : Payload) (originalToolChoice : Option ToolChoiceA)
    (forcedTools : List String) (ls : LoopSt) : Option ToolChoiceA :=
  if isToolChoiceObject originalToolChoice && ls.hasUsedForcedTool &&
      decide (0 < forcedTools.length) then
    match forcedTools.filter (fun t => !(ls.usedForcedTools.contains t)) with
    | r :: _ => some (.tool r)
    | [] => none
  else if ls.hasUsedForcedTool && isToolChoiceObject originalToolChoice then
    none
  else payload.tool_choice

/-- One pass of the while body (lines 328-509): tool batch processing,
tool-choice re-evaluation, next vendor call, forced-tool tracking, timing,
content and token accumulation.  A vendor error propagates (the inner
`catch` of lines 511-514 rethrows). -/
def loopBody (env : Env) (req : Req) (payload : Payload)
    (originalToolChoice : Option ToolChoiceA) (forcedTools : List String)
    (ls : LoopSt) (st : St) : Except String LoopSt × St :=
  let toolUses := toolUsesOf ls.currentResponse
  let (toolsStartTime, st) := tick st
  let (ls, st) := processToolUses env req toolUses ls st
  let (tNow, st) := tick st
  let thisToolsTime := tNow - toolsStartTime
  let ls := { ls with toolsTime := ls.toolsTime + thisToolsTime }
  let nextPayload :=
    { payload with
        messages := ls.currentMessages
        tool_choice := nextToolChoice payload originalToolChoice forcedTools ls }
  let (nextModelStartTime, st) := tick st
  let (vres, st) := callVendor env nextPayload st
  match vres with
  | .error e => (.error e, st)
  | .ok resp =>
    let (hasUsed, used) :=
      if isToolChoiceObject nextPayload.tool_choice &&
          !(toolNamesOf resp).isEmpty then
        let r := trackForcedToolUsage (toolNamesOf resp)
          (forcedNameOf nextPayload.tool_choice) ls.usedForcedTools
        (r.1 || ls.hasUsedForcedTool, r.2)
      else (ls.hasUsedForcedTool, ls.usedForcedTools)
    let (nextModelEndTime, st) := tick st
    let thisModelTime := nextModelEndTime - nextModelStartTime
    let seg : TimeSegment :=
      { type := "model"
        name := "Model response (iteration " ++ toString (ls.iterationCount + 1) ++ ")"
        startTime := nextModelStartTime, endTime := nextModelEndTime
        duration := thisModelTime }
    let textContent := textOf resp
    (.ok
      { ls with
          currentResponse := resp
          hasUsedForcedTool := hasUsed
          usedForcedTools := used
          timeSegments := ls.timeSegments ++ [seg]
          modelTime := ls.modelTime + thisModelTime
          content := if textContent = "" then ls.content else textContent
          tokens := addUsage ls.tokens resp.usage
          iterationCount := ls.iterationCount + 1 }, st)

/-- The `while (iterationCount < MAX_ITERATIONS)` loop (lines 321-510),
written with a structural fuel argument (instantiated with
`MAX_ITERATIONS` at the call site) alongside the source's own guard. -/
def loopGo (env : Env) (req : Req) (payload : Payload)
    (originalToolChoice : Option ToolChoiceA) (forcedTools : List String) :
    Nat → LoopSt → St → Except String LoopSt × St
  | 0, ls, st => (.ok ls, st)
  | Nat.succ fuel, ls, st =>
    if ls.iterationCount < MAX_ITERATIONS then
      match toolUsesOf ls.currentResponse with
      | [] => (.ok ls, st)
      | _ :: _ =>
        match loopBody env req payload originalToolChoice forcedTools ls st with
        | (.error e, st) => (.error e, st)
        | (.ok ls, st) => loopGo env req payload originalToolChoice forcedTools fuel ls st
    else (.ok ls, st)

/-- Best-effort JSON isolation (lines 516-526): when the content holds both
braces, the greedy regex match spans the first opening brace to the last
closing brace; without such a span the content is left unchanged. -/
def extractJson (content : String) : String :=
  if strHasChar content '{' && strHasChar content '}' then
    let l := content.data
    match firstIdxOf l '{', lastIdxOf l '}' with
    | some i, some j =>
      if i < j then String.mk ((l.drop i).take (j - i + 1)) else content
    | _, _ => content
  else content

/-- The loop accumulators as initialized after the first response (lines
250-318), including the first-response forced-tool tracking. -/
def initLoopSt (setup : Setup) (r0 : Response)
    (initialCallTime firstResponseTime : Nat) : LoopSt :=
  let originalToolChoice := setup.payload.tool_choice
  let tr :=
    if isToolChoiceObject originalToolChoice && !(toolNamesOf r0).isEmpty then
      trackForcedToolUsage (toolNamesOf r0) (forcedNameOf originalToolChoice) []
    else (false, [])
  { currentResponse := r0
    content := textOf r0
    tokens := initTokens r0.usage
    toolCalls := []
    toolResults := []
    currentMessages := setup.messages
    iterationCount := 0
    hasUsedForcedTool := tr.1
    usedForcedTools := tr.2
    modelTime := firstResponseTime
    toolsTime := 0
    timeSegments :=
      [{ type := "model", name := "Initial response", startTime := initialCallTime,
         endTime := initialCallTime + firstResponseTime,
         duration := firstResponseTime }] }

/-- Body of the outer `try` (lines 233-559): initial call, first-response
forced-tool tracking, the loop, JSON isolation and envelope assembly. -/
def tryBody (env : Env) (req : Req) (setup : Setup) (providerStartTime : Nat) (st : St) :
    Except String Envelope × St :=
  let (initialCallTime, st) := tick st
  let originalToolChoice := setup.payload.tool_choice
  let forcedTools := setup.forcedTools
  let (vres, st) := callVendor env setup.payload st
  match vres with
  | .error e => (.error e, st)
  | .ok r0 =>
    let (t1, st) := tick st
    let firstResponseTime := t1 - initialCallTime
    let ls0 := initLoopSt setup r0 initialCallTime firstResponseTime
    match loopGo env req setup.payload originalToolChoice forcedTools MAX_ITERATIONS ls0 st with
    | (.error e, st) => (.error e, st)
    | (.ok ls, st) =>
      let content := extractJson ls.content
      let (providerEndTime, st) := tick st
      (.ok
        { content := content
          model := modelOrDefault req
          tokens := ls.tokens
          toolCalls := if 0 < ls.toolCalls.length then some ls.toolCalls else none
          toolResults := if 0 < ls.toolResults.length then some ls.toolResults else none
          timing :=
            { startTime := providerStartTime
              endTime := providerEndTime
              duration := providerEndTime - providerStartTime
              modelTime := ls.modelTime
              toolsTime := ls.toolsTime
              firstResponseTime := firstResponseTime
              iterations := ls.iterationCount + 1
              timeSegments := ls.timeSegments } }, st)

/-- The whole `executeRequest` of the Anthropic adapter: credential check
(line 18, before anything else), setup before the timer, then the timed
`try` whose `catch` (lines 560-581) attaches timing to the error. -/
def executeRequest (env : Env) (req : Req) : Except PErr Envelope × St :=
  if req.apiKey = "" then
    (.error (.plain "API key is required for Anthropic"), initSt)
  else
    match buildSetup env req initSt with
    | (.error e, st) => (.error (.plain e), st)
    | (.ok setup, st) =>
      let (providerStartTime, st) := tick st
      match tryBody env req setup providerStartTime st with
      | (.ok envl, st) => (.ok envl, st)
      | (.error e, st) =>
        let (providerEndTime, st) := tick st
        (.error (.withTiming e
          { startTime := providerStartTime, endTime := providerEndTime,
            duration := providerEndTime - providerStartTime }), st)

end Anth

namespace DS

/-! Shallow embedding of `src/sim/providers/deepseek/index.ts` (`executeRequest`). -/

/-- The `function` part of an OpenAI-format tool call. -/
structure DSFn where
  name : String
  arguments : String
deriving DecidableEq, Repr

/-- One tool call of a Deepseek response (OpenAI format). -/
structure DSToolCall where
  id : String
  function : DSFn
deriving DecidableEq, Repr

/-- The message of a Deepseek response choice. -/
structure DSRespMsg where
  content : Option String := none
  tool_calls : Option (List DSToolCall) := none
deriving DecidableEq, Repr

/-- One choice of a Deepseek response. -/
structure DSChoice where
  message : DSRespMsg
deriving DecidableEq, Repr

/-- Usage block of a Deepseek response. -/
structure DSUsage where
  prompt_tokens : Nat
  completion_tokens : Nat
  total_tokens : Nat
deriving DecidableEq, Repr

/-- A vendor response (`deepseek.chat.completions.create` result). -/
structure Response where
  choices : List DSChoice
  usage : Option DSUsage := none
deriving DecidableEq, Repr

/-- An OpenAI-format wire message.  Prior turns of the request are forwarded
untouched (line 55); fields this adapter never reads are dropped. -/
structure DSMsg where
  role : String
  content : Option String := none
  tool_calls : Option (List DSToolCall) := none
  tool_call_id : Option String := none
deriving DecidableEq, Repr

/-- An OpenAI-format tool schema (`type: 'function'` is implicit). -/
structure DSTool where
  name : String
  description : String
  parameters : Schema
deriving DecidableEq, Repr

/-- The `tool_choice` values this adapter produces: the string `'auto'` or
the object `\x7btype: 'function', function: \x7bname\x7d\x7d`. -/
inductive DSToolChoice where
  | auto
  | function (name : String)
deriving DecidableEq, Repr

/-- JS `typeof tool_choice === 'object'` for this adapter. -/
def isToolChoiceObject (o : Option DSToolChoice) : Bool :=
  match o with
  | some (.function _) => true
  | _ => false

/-- Name carried by a forced tool-choice object, if any. -/
def forcedNameOf (o : Option DSToolChoice) : Option String :=
  match o with
  | some (.function n) => some n
  | _ => none

/-- The request payload sent to the vendor.  The model id is hardcoded to
`'deepseek-chat'` at source line 71; the floating-point temperature is
elided; `max_tokens` is only set when the request carries one. -/
structure Payload where
  model : String
  messages : List DSMsg
  max_tokens : Option Nat := none
  tools : Option (List DSTool) := none
  tool_choice : Option DSToolChoice := none
deriving DecidableEq, Repr

/-- External collaborators, as for the Anthropic adapter. -/
structure Env where
  vendor : Nat → Except String Response
  toolExec : String → Args → Except String ToolResult
  parseJson : String → Except String Args

/-- Effect state for the Deepseek adapter. -/
abbrev St := EffSt Payload

/-- Issue one vendor call: log the payload and consult the vendor oracle. -/
def callVendor (env : Env) (p : Payload) (st : St) : Except String Response × St :=
  (env.vendor st.calls.length, { st with calls := st.calls ++ [p] })

/-- The response envelope of the Deepseek adapter; its `model` field echoes
`request.model` (line 330), which may be absent. -/
structure Envelope where
  content : String
  model : Option String
  tokens : Tokens
  toolCalls : Option (List ToolCallRecord) := none
  toolResults : Option (List String) := none
  timing : Timing
deriving DecidableEq, Repr

/-- Modelled from the spec: `prepareToolsWithUsageControl` is not under
`src/`; same policy as the Anthropic-side model, returning OpenAI-format
directives. -/
structure PreparedTools where
  tools : List DSTool
  toolChoice : DSToolChoice
deriving Repr

/-- Modelled from the spec: see `PreparedTools`. -/
def prepareToolsWithUsageControl (vendorTools : List DSTool) (reqTools : List ToolDef) :
    PreparedTools :=
  let allowedIds := (reqTools.filter (fun t => t.usageControl ≠ some "none")).map (fun t => t.id)
  let filtered := vendorTools.filter (fun vt => allowedIds.contains vt.name)
  let forced := (reqTools.filter (fun t => t.usageControl = some "force")).map (fun t => t.id)
  { tools := filtered
    toolChoice := match forced with
      | f :: _ => .function f
      | [] => .auto }

/-- Modelled from the spec: `trackForcedToolUsage` is not under `src/`.
This adapter passes no forced-tool list (lines 163-168), so the tracker
only reports whether the active forced tool's name appears among the
response's tool calls. -/
def trackForcedToolUsage (toolCallNames : List String) (forcedName : Option String) : Bool :=
  match forcedName with
  | some n => toolCallNames.contains n
  | none => false

/-- Markdown fence removal: one left-to-right pass of
`content.replace(/```json\n?|\n?```/g, '')` (lines 122-123). -/
def stripFences : List Char → List Char
  | '`' :: '`' :: '`' :: 'j' :: 's' :: 'o' :: 'n' :: '\n' :: rest => stripFences rest
  | '`' :: '`' :: '`' :: 'j' :: 's' :: 'o' :: 'n' :: rest => stripFences rest
  | '\n' :: '`' :: '`' :: '`' :: rest => stripFences rest
  | '`' :: '`' :: '`' :: rest => stripFences rest
  | c :: rest => c :: stripFences rest
  | [] => []

/-- Content cleanup (lines 121-126): for truthy content, remove markdown
code-fence markers and trim whitespace. -/
def cleanContent (c : String) : String :=
  if c = "" then c else jsTrim (String.mk (stripFences c.data))

/-- The `choices[0]?.message?.content` access. -/
def msgContentOf (r : Response) : Option String :=
  r.choices.head?.bind (fun c => c.message.content)

/-- The `choices[0]?.message?.tool_calls` access. -/
def toolCallsOf (r : Response) : Option (List DSToolCall) :=
  r.choices.head?.bind (fun c => c.message.tool_calls)

/-- Names of the tool calls of a response. -/
def toolNamesOf (r : Response) : List String :=
  ((toolCallsOf r).getD []).map (fun tc => tc.function.name)

/-- Initial token counts (lines 128-132, `|| 0` per field). -/
def initTokens (u : Option DSUsage) : Tokens :=
  match u with
  | some u => { prompt := u.prompt_tokens, completion := u.completion_tokens,
                total := u.total_tokens }
  | none => { prompt := 0, completion := 0, total := 0 }

/-- Token accumulation of lines 311-315 (`if (currentResponse.usage)`). -/
def addUsage (t : Tokens) (u : Option DSUsage) : Tokens :=
  match u with
  | some u => { prompt := t.prompt + u.prompt_tokens
                completion := t.completion + u.completion_tokens
                total := t.total + u.total_tokens }
  | none => t

/-- The iteration cap (`MAX_ITERATIONS`, line 137). -/
def MAX_ITERATIONS : Nat := 10

/-- Mutable accumulators owned by the execution loop. -/
structure LoopSt where
  currentResponse : Response
  content : String
  tokens : Tokens
  toolCalls : List ToolCallRecord
  toolResults : List String
  currentMessages : List DSMsg
  iterationCount : Nat
  hasUsedForcedTool : Bool
  modelTime : Nat
  toolsTime : Nat
  timeSegments : List TimeSegment
deriving Repr

/-- Processing of one tool call (the `for` loop body, lines 184-244).
A failing `JSON.parse`, an unresolved tool id, a throwing execution, or
`success=false` all leave the accumulators untouched; a successful
execution appends the segment, result, record and the assistant/tool
message pair. -/
def processToolCall (env : Env) (req : Req) (tc : DSToolCall) (ls : LoopSt) (st : St) :
    LoopSt × St :=
  let toolName := tc.function.name
  match env.parseJson tc.function.arguments with
  | .error _ => (ls, st)
  | .ok toolArgs =>
    match (req.tools.getD []).find? (fun t => t.id == toolName) with
    | none => (ls, st)
    | some tool =>
      let (toolCallStartTime, st) := tick st
      let mergedArgs := spreadMerge tool.params toolArgs
      match env.toolExec toolName mergedArgs with
      | .error _ => (ls, st)
      | .ok result =>
        let (toolCallEndTime, st) := tick st
        let toolCallDuration := toolCallEndTime - toolCallStartTime
        if !result.success then (ls, st)
        else
          let seg : TimeSegment :=
            { type := "tool", name := toolName, startTime := toolCallStartTime,
              endTime := toolCallEndTime, duration := toolCallDuration }
          let record : ToolCallRecord :=
            { name := toolName, arguments := toolArgs, startTime := toolCallStartTime,
              endTime := toolCallEndTime, duration := toolCallDuration,
              result := result.output }
          let echoedCall : DSToolCall :=
            { id := tc.id
              function := { name := toolName, arguments := tc.function.arguments } }
          let assistantMsg : DSMsg :=
            { role := "assistant", content := none, tool_calls := some [echoedCall] }
          let toolMsg : DSMsg :=
            { role := "tool", content := some (jsonQuote result.output),
              tool_call_id := some tc.id }
          ({ ls with
              timeSegments := ls.timeSegments ++ [seg]
              toolResults := ls.toolResults ++ [result.output]
              toolCalls := ls.toolCalls ++ [record]
              currentMessages := ls.currentMessages ++ [assistantMsg, toolMsg] }, st)

/-- Process a whole batch of tool calls in vendor order. -/
def processToolCalls (env : Env) (req : Req) : List DSToolCall → LoopSt → St → LoopSt × St
  | [], ls, st => (ls, st)
  | tc :: rest, ls, st =>
    let (ls, st) := processToolCall env req tc ls st
    processToolCalls env req rest ls st

/-- One pass of the while body (lines 180-317): tool batch processing,
tool-choice relaxation after a fired forced tool, next vendor call,
tracking, timing, content cleanup and token accumulation.  The `error`
result carries the accumulated state, because the inner `catch` (lines
319-321) only logs: a vendor error ends the loop and the accumulators
survive into the envelope. -/
def loopBody (env : Env) (req : Req) (payload : Payload)
    (originalToolChoice : Option DSToolChoice) (toolCallsInResponse : List DSToolCall)
    (ls : LoopSt) (st : St) : Except LoopSt LoopSt × St :=
  let (toolsStartTime, st) := tick st
  let (ls, st) := processToolCalls env req toolCallsInResponse ls st
  let (tNow, st) := tick st
  let thisToolsTime := tNow - toolsStartTime
  let ls := { ls with toolsTime := ls.toolsTime + thisToolsTime }
  let nextPayload :=
    { payload with
        messages := ls.currentMessages
        tool_choice :=
          if ls.hasUsedForcedTool && isToolChoiceObject originalToolChoice then
            some .auto
          else payload.tool_choice }
  let (nextModelStartTime, st) := tick st
  let (vres, st) := callVendor env nextPayload st
  match vres with
  | .error _ => (.error ls, st)
  | .ok resp =>
    let hasUsed :=
      if !ls.hasUsedForcedTool && isToolChoiceObject originalToolChoice &&
          (toolCallsOf resp).isSome then
        trackForcedToolUsage (toolNamesOf resp) (forcedNameOf originalToolChoice)
      else ls.hasUsedForcedTool
    let (nextModelEndTime, st) := tick st
    let thisModelTime := nextModelEndTime - nextModelStartTime
    let seg : TimeSegment :=
      { type := "model"
        name := "Model response (iteration " ++ toString (ls.iterationCount + 1) ++ ")"
        startTime := nextModelStartTime, endTime := nextModelEndTime
        duration := thisModelTime }
    (.ok
      { ls with
          currentResponse := resp
          hasUsedForcedTool := hasUsed
          timeSegments := ls.timeSegments ++ [seg]
          modelTime := ls.modelTime + thisModelTime
          content :=
            match msgContentOf resp with
            | some c => if c = "" then ls.content else cleanContent c
            | none => ls.content
          tokens := addUsage ls.tokens resp.usage
          iterationCount := ls.iterationCount + 1 }, st)

/-- The `while (iterationCount < MAX_ITERATIONS)` loop (lines 172-321),
with a structural fuel argument alongside the source's guard.  A vendor
error inside the body ends the loop keeping the state accumulated so far. -/
def loopGo (env : Env) (req : Req) (payload : Payload)
    (originalToolChoice : Option DSToolChoice) :
    Nat → LoopSt → St → LoopSt × St
  | 0, ls, st => (ls, st)
  | Nat.succ fuel, ls, st =>
    if ls.iterationCount < MAX_ITERATIONS then
      match toolCallsOf ls.currentResponse with
      | none => (ls, st)
      | some [] => (ls, st)
      | some toolCallsInResponse =>
        match loopBody env req payload originalToolChoice toolCallsInResponse ls st with
        | (.error ls, st) => (ls, st)
        | (.ok ls, st) => loopGo env req payload originalToolChoice fuel ls st
    else (ls, st)

/-- Message assembly of lines 34-56: system prompt, context, then the prior
turns forwarded untouched. -/
def allMessagesOf (req : Req) : List DSMsg :=
  (match req.systemPrompt with
    | some sp => if sp = "" then [] else [{ role := "system", content := some sp }]
    | none => []) ++
  (match req.context with
    | some ctx => if ctx = "" then [] else [{ role := "user", content := some ctx }]
    | none => []) ++
  (req.messages.getD []).map (fun m => { role := m.role, content := m.content })

/-- Payload assembly of lines 58-107: hardcoded model id, messages, optional
`max_tokens`, and the usage-controlled tool set with its directive. -/
def buildPayload (req : Req) : Payload :=
  let allMessages := allMessagesOf req
  let tools : Option (List DSTool) :=
    match req.tools with
    | some ts => if ts.isEmpty then none else
        some (ts.map (fun t =>
          { name := t.id, description := t.description, parameters := t.parameters }))
    | none => none
  let payload0 : Payload :=
    { model := "deepseek-chat", messages := allMessages, max_tokens := req.maxTokens }
  match tools with
  | some ts =>
    let p := prepareToolsWithUsageControl ts (req.tools.getD [])
    if p.tools.isEmpty then payload0
    else { payload0 with tools := some p.tools, tool_choice := some p.toolChoice }
  | none => payload0

/-- The loop accumulators as initialized after the first response (lines
118-170), including the initial content cleanup and first-response
forced-tool tracking. -/
def initLoopSt (req : Req) (r0 : Response)
    (initialCallTime firstResponseTime : Nat) : LoopSt :=
  let originalToolChoice := (buildPayload req).tool_choice
  { currentResponse := r0
    content := cleanContent ((msgContentOf r0).getD "")
    tokens := initTokens r0.usage
    toolCalls := []
    toolResults := []
    currentMessages := allMessagesOf req
    iterationCount := 0
    hasUsedForcedTool :=
      if isToolChoiceObject originalToolChoice && (toolCallsOf r0).isSome then
        trackForcedToolUsage (toolNamesOf r0) (forcedNameOf originalToolChoice)
      else false
    modelTime := firstResponseTime
    toolsTime := 0
    timeSegments :=
      [{ type := "model", name := "Initial response", startTime := initialCallTime,
         endTime := initialCallTime + firstResponseTime,
         duration := firstResponseTime }] }

/-- Body of the outer `try` (lines 26-344): message assembly, tool
translation and usage control, payload, initial call, cleanup, tracking,
the loop, and envelope assembly. -/
def tryBody (env : Env) (req : Req) (providerStartTime : Nat) (st : St) :
    Except String Envelope × St :=
  let payload := buildPayload req
  let (initialCallTime, st) := tick st
  let originalToolChoice := payload.tool_choice
  let (vres, st) := callVendor env payload st
  match vres with
  | .error e => (.error e, st)
  | .ok r0 =>
    let (t1, st) := tick st
    let firstResponseTime := t1 - initialCallTime
    let ls0 := initLoopSt req r0 initialCallTime firstResponseTime
    let (ls, st) := loopGo env req payload originalToolChoice MAX_ITERATIONS ls0 st
    let (providerEndTime, st) := tick st
    (.ok
      { content := ls.content
        model := req.model
        tokens := ls.tokens
        toolCalls := if 0 < ls.toolCalls.length then some ls.toolCalls else none
        toolResults := if 0 < ls.toolResults.length then some ls.toolResults else none
        timing :=
          { startTime := providerStartTime
            endTime := providerEndTime
            duration := providerEndTime - providerStartTime
            modelTime := ls.modelTime
            toolsTime := ls.toolsTime
            firstResponseTime := firstResponseTime
            iterations := ls.iterationCount + 1
            timeSegments := ls.timeSegments } }, st)

/-- The whole `executeRequest` of the Deepseek adapter: credential check
(line 18) before the timer; the timer starts (line 23) before the `try`;
the outer `catch` (lines 345-366) attaches timing to any error. -/
def executeRequest (env : Env) (req : Req) : Except PErr Envelope × St :=
  if req.apiKey = "" then
    (.error (.plain "API key is required for Deepseek"), initSt)
  else
    let (providerStartTime, st) := tick (initSt (P := Payload))
    match tryBody env req providerStartTime st with
    | (.ok envl, st) => (.ok envl, st)
    | (.error e, st) =>
      let (providerEndTime, st) := tick st
      (.error (.withTiming e
        { startTime := providerStartTime, endTime := providerEndTime,
          duration := providerEndTime - providerStartTime }), st)

end DS

/-! Helper observers and concrete fixtures used by the theorems below. -/

/-- Message of an error that carries timing, if the result is such an error. -/
def errTimingMsg {α : Type} : Except PErr α → Option String
  | .error (.withTiming m _) => some m
  | _ => none

/-- True unless the result is an error without timing. -/
def okOrTimed {α : Type} : Except PErr α → Bool
  | .error (.plain _) => false
  | _ => true

/-- Reported iteration count of a successful Anthropic envelope. -/
def iterationsOfA : Except PErr Anth.Envelope → Option Nat
  | .ok e => some e.timing.iterations
  | .error _ => none

/-- Reported iteration count of a successful Deepseek envelope. -/
def iterationsOfD : Except PErr DS.Envelope → Option Nat
  | .ok e => some e.timing.iterations
  | .error _ => none

/-- A vendor stub that always answers and always requests a tool (the spec's
"stub vendor that always returns a tool invocation"). -/
def Anth.vendorOkTool (env : Anth.Env) : Prop :=
  ∀ n, ∃ r, env.vendor n = Except.ok r ∧ Anth.toolUsesOf r ≠ []

/-- Deepseek version of `Anth.vendorOkTool`. -/
def DS.vendorOkTool (env : DS.Env) : Prop :=
  ∀ n, ∃ r tc tcs, env.vendor n = Except.ok r ∧ DS.toolCallsOf r = some (tc :: tcs)

/-- The tool invocation `tu` resolves to a declared tool whose execution
fails: `executeTool` throws or reports `success = false`. -/
def Anth.execFails (env : Anth.Env) (req : Req) (tu : Anth.ToolUseInfo) : Prop :=
  match (req.tools.getD []).find? (fun t => t.id == tu.name) with
  | none => False
  | some tool =>
    match env.toolExec tu.name (spreadMerge tool.params tu.input) with
    | .error _ => True
    | .ok r => r.success = false

/-- Number of `Date.now()` calls a failing tool invocation consumes. -/
def Anth.failTicks (env : Anth.Env) (req : Req) (tu : Anth.ToolUseInfo) : Nat :=
  match (req.tools.getD []).find? (fun t => t.id == tu.name) with
  | none => 0
  | some tool =>
    match env.toolExec tu.name (spreadMerge tool.params tu.input) with
    | .error _ => 1
    | .ok _ => 2

/-- The tool call `tc` fails in the Deepseek per-tool body: its arguments do
not parse, or it resolves to a declared tool whose execution throws or
reports `success = false`. -/
def DS.execFails (env : DS.Env) (req : Req) (tc : DS.DSToolCall) : Prop :=
  match env.parseJson tc.function.arguments with
  | .error _ => True
  | .ok args =>
    match (req.tools.getD []).find? (fun t => t.id == tc.function.name) with
    | none => False
    | some tool =>
      match env.toolExec tc.function.name (spreadMerge tool.params args) with
      | .error _ => True
      | .ok r => r.success = false

/-- Number of `Date.now()` calls a failing Deepseek tool call consumes. -/
def DS.failTicks (env : DS.Env) (req : Req) (tc : DS.DSToolCall) : Nat :=
  match env.parseJson tc.function.arguments with
  | .error _ => 0
  | .ok args =>
    match (req.tools.getD []).find? (fun t => t.id == tc.function.name) with
    | none => 0
    | some tool =>
      match env.toolExec tc.function.name (spreadMerge tool.params args) with
      | .error _ => 1
      | .ok _ => 2

/-- Anthropic response that always requests tool `t`. -/
def toolRespA : Anth.Response :=
  { content := [.tool_use "id" "t" []], usage := some { input_tokens := 3, output_tokens := 4 } }

/-- Anthropic environment whose vendor always requests tool `t` and whose
tool executions succeed. -/
def toolLoopEnvA : Anth.Env :=
  { vendor := fun _ => .ok toolRespA
    toolExec := fun _ _ => .ok { success := true, output := "out" }
    parseJson := fun _ => .ok [] }

/-- Request declaring tool `t` with a non-empty credential. -/
def toolLoopReqA : Req := { apiKey := "k", tools := some [{ id := "t" }] }

/-- The tool call carried by `toolRespD`. -/
def toolCallD : DS.DSToolCall :=
  { id := "c", function := { name := "t", arguments := "a" } }

/-- Deepseek response that always requests tool `t`. -/
def toolRespD : DS.Response :=
  { choices := [{ message := { tool_calls := some [toolCallD] } }]
    usage := some { prompt_tokens := 3, completion_tokens := 4, total_tokens := 7 } }

/-- Deepseek environment whose vendor always requests tool `t`. -/
def toolLoopEnvD : DS.Env :=
  { vendor := fun _ => .ok toolRespD
    toolExec := fun _ _ => .ok { success := true, output := "out" }
    parseJson := fun _ => .ok [] }

/-- Request declaring tool `t` for the Deepseek adapter. -/
def toolLoopReqD : Req := { apiKey := "k", tools := some [{ id := "t" }] }

/-- Deepseek environment whose first call requests a tool and whose second
call throws (`boom`). -/
def inLoopErrEnvD : DS.Env :=
  { vendor := fun n => if n = 0 then .ok toolRespD else .error "boom"
    toolExec := fun _ _ => .ok { success := true, output := "out" }
    parseJson := fun _ => .ok [] }

/-- Minimal request with only a credential. -/
def keyOnlyReq : Req := { apiKey := "k" }

/-- Anthropic environment whose vendor always throws (`down`). -/
def downEnvA : Anth.Env :=
  { vendor := fun _ => .error "down"
    toolExec := fun _ _ => .ok { success := true, output := "out" }
    parseJson := fun _ => .ok [] }

/-- Deepseek environment whose vendor always throws (`d0`). -/
def downEnvD : DS.Env :=
  { vendor := fun _ => .error "d0"
    toolExec := fun _ _ => .ok { success := true, output := "out" }
    parseJson := fun _ => .ok [] }

/-- Deepseek environment that answers plain text (`hi`). -/
def textEnvD : DS.Env :=
  { vendor := fun _ => .ok { choices := [{ message := { content := some "hi" } }] }
    toolExec := fun _ _ => .ok { success := true, output := "out" }
    parseJson := fun _ => .ok [] }

/-- Anthropic request/environment pair for the forced-sequence trace:
tools `A` then `B` both marked `force`; the vendor invokes `A`, then `B`,
then answers `done`. -/
def c3reqA (A B : String) : Req :=
  { apiKey := "k"
    tools := some [{ id := A, usageControl := some "force" },
                   { id := B, usageControl := some "force" }] }

/-- Vendor trace for the forced-sequence scenario. -/
def c3envA (A B : String) : Anth.Env :=
  { vendor := fun n =>
      if n = 0 then .ok { content := [.tool_use "i0" A []] }
      else if n = 1 then .ok { content := [.tool_use "i1" B []] }
      else .ok { content := [.text "done"] }
    toolExec := fun _ _ => .ok { success := true, output := "out" }
    parseJson := fun _ => .ok [] }

/-- Deepseek request for the single-forced-tool trace. -/
def c3reqD (A : String) : Req :=
  { apiKey := "k", tools := some [{ id := A, usageControl := some "force" }] }

/-- First response of the Deepseek single-forced-tool scenario. -/
def c3respD (A : String) : DS.Response :=
  let call : DS.DSToolCall := { id := "c0", function := { name := A, arguments := "a" } }
  { choices := [{ message := { tool_calls := some [call] } }] }

/-- Vendor trace for the Deepseek single-forced-tool scenario. -/
def c3envD (A : String) : DS.Env :=
  { vendor := fun n =>
      if n = 0 then .ok (c3respD A)
      else .ok { choices := [{ message := { content := some "done" } }] }
    toolExec := fun _ _ => .ok { success := true, output := "out" }
    parseJson := fun _ => .ok [] }

/-- Anthropic environment whose tool executions report `success = false`. -/
def failToolEnvA : Anth.Env :=
  { vendor := fun _ => .ok toolRespA
    toolExec := fun _ _ => .ok { success := false, output := "bad" }
    parseJson := fun _ => .ok [] }

/-- Deepseek environment whose tool executions report `success = false`. -/
def failToolEnvD : DS.Env :=
  { vendor := fun _ => .ok toolRespD
    toolExec := fun _ _ => .ok { success := false, output := "bad" }
    parseJson := fun _ => .ok [] }

/-- An empty Anthropic loop state (used to exercise the per-tool batch). -/
def emptyLoopStA : Anth.LoopSt :=
  { currentResponse := { content := [] }
    content := ""
    tokens := { prompt := 0, completion := 0, total := 0 }
    toolCalls := []
    toolResults := []
    currentMessages := []
    iterationCount := 0
    hasUsedForcedTool := false
    usedForcedTools := []
    modelTime := 0
    toolsTime := 0
    timeSegments := [] }

/-- An empty Deepseek loop state. -/
def emptyLoopStD : DS.LoopSt :=
  { currentResponse := { choices := [] }
    content := ""
    tokens := { prompt := 0, completion := 0, total := 0 }
    toolCalls := []
    toolResults := []
    currentMessages := []
    iterationCount := 0
    hasUsedForcedTool := false
    modelTime := 0
    toolsTime := 0
    timeSegments := [] }

/-- Anthropic environment whose `JSON.parse` oracle always throws, as the
real builtin does on malformed input. -/
def badParseEnvA : Anth.Env :=
  { vendor := fun _ => .ok { content := [.text "hi"] }
    toolExec := fun _ _ => .ok { success := true, output := "out" }
    parseJson := fun _ => .error "Unexpected token o in JSON at position 0" }

/-- Request whose prior turn carries a `function_call` with malformed
arguments (`oops` is not JSON). -/
def badParseReqA : Req :=
  { apiKey := "k"
    messages := some [{ role := "assistant",
                        function_call := some { name := "f", arguments := "oops" } }] }

/-- Request carrying a structured-output schema with a numeric `score`. -/
def scoreSchema : Schema := { properties := some [("score", { type := some "number" })] }

/-- Request for the structured-output scenario: system prompt `S`, one prior
user turn (so the empty-history fallback does not clear the prompt). -/
def scoreReqA : Req :=
  { apiKey := "k"
    systemPrompt := some "S"
    messages := some [{ role := "user", content := some "hi" }]
    responseFormat := some scoreSchema }

/-- Anthropic environment answering text that surrounds a JSON span. -/
def jsonTextEnvA : Anth.Env :=
  { vendor := fun _ => .ok { content := [.text "junk \x7b\"score\": 4\x7d junk"] }
    toolExec := fun _ _ => .ok { success := true, output := "out" }
    parseJson := fun _ => .ok [] }

/-- Deepseek environment answering the same brace-surrounded text. -/
def jsonTextEnvD : DS.Env :=
  { vendor := fun _ =>
      .ok { choices := [{ message := { content := some "junk \x7b\"score\": 4\x7d junk" } }] }
    toolExec := fun _ _ => .ok { success := true, output := "out" }
    parseJson := fun _ => .ok [] }

/-- Deepseek request with a model selected in the UI. -/
def modelReqD : Req := { apiKey := "k", model := some "deepseek-v3" }

/-- Deepseek environment whose answer is backtick runs that survive the
single-pass fence removal (`\` \` \n \` \` \` \` \``). -/
def fencesEnvD : DS.Env :=
  { vendor := fun _ =>
      .ok { choices := [{ message := { content := some "``\n`````" } }] }
    toolExec := fun _ _ => .ok { success := true, output := "out" }
    parseJson := fun _ => .ok [] }

/-- Deepseek environment whose first answer requests tool `t` and whose
second answer is a well-formed fenced JSON block. -/
def fencedLoopEnvD : DS.Env :=
  { vendor := fun n =>
      if n = 0 then .ok toolRespD
      else .ok { choices := [{ message := { content := some "```json\n\x7b\"a\":1\x7d\n```" } }] }
    toolExec := fun _ _ => .ok { success := true, output := "out" }
    parseJson := fun _ => .ok [] }

/-- Deepseek environment answering a well-formed fenced JSON block at once. -/
def fencedEnvD : DS.Env :=
  { vendor := fun _ =>
      .ok { choices := [{ message := { content := some "```json\n\x7b\"a\":1\x7d\n```" } }] }
    toolExec := fun _ _ => .ok { success := true, output := "out" }
    parseJson := fun _ => .ok [] }

/-- Content of a successful Anthropic envelope, if the result is one. -/
def contentOfA : Except PErr Anth.Envelope → Option String
  | .ok e => some e.content
  | .error _ => none

/-- Content of a successful Deepseek envelope, if the result is one. -/
def contentOfD : Except PErr DS.Envelope → Option String
  | .ok e => some e.content
  | .error _ => none

/-- Model field of a successful Deepseek envelope, if the result is one. -/
def modelOfD : Except PErr DS.Envelope → Option (Option String)
  | .ok e => some e.model
  | .error _ => none

/-- Request with an empty credential. -/
def emptyKeyReq : Req := { apiKey := "" }

/-- The single tool invocation carried by `toolRespA`. -/
def tuT : Anth.ToolUseInfo := { id := "id", name := "t", input := [] }

/-! Helper lemmas: the per-tool batch never issues vendor calls and never
touches the loop counter, the current response, or (for Deepseek) the
accumulated content. -/

theorem Anth.processToolUse_preserve (env : Anth.Env) (req : Req) (tu : Anth.ToolUseInfo)
    (ls : Anth.LoopSt) (st : Anth.St) :
    (Anth.processToolUse env req tu ls st).2.calls = st.calls ∧
    (Anth.processToolUse env req tu ls st).1.iterationCount = ls.iterationCount ∧
    (Anth.processToolUse env req tu ls st).1.currentResponse = ls.currentResponse := by
  rcases hf : List.find? (fun t => t.id == tu.name) (req.tools.getD []) with _ | tool
  · simp [Anth.processToolUse, hf]
  · rcases hx : env.toolExec tu.name (spreadMerge tool.params tu.input) with e | result
    · simp [Anth.processToolUse, hf, hx, tick]
    · rcases hs : result.success with _ | _
      · simp [Anth.processToolUse, hf, hx, hs, tick]
      · simp [Anth.processToolUse, hf, hx, hs, tick]

theorem Anth.processToolUses_preserve (env : Anth.Env) (req : Req) :
    ∀ (l : List Anth.ToolUseInfo) (ls : Anth.LoopSt) (st : Anth.St),
    (Anth.processToolUses env req l ls st).2.calls = st.calls ∧
    (Anth.processToolUses env req l ls st).1.iterationCount = ls.iterationCount ∧
    (Anth.processToolUses env req l ls st).1.currentResponse = ls.currentResponse := by
  intro l
  induction l with
  | nil => intro ls st; exact ⟨rfl, rfl, rfl⟩
  | cons tu rest ih =>
    intro ls st
    rcases hp : Anth.processToolUse env req tu ls st with ⟨ls1, st1⟩
    have h1 := Anth.processToolUse_preserve env req tu ls st
    rw [hp] at h1
    have h2 := ih ls1 st1
    simp only [Anth.processToolUses, hp]
    exact ⟨h2.1.trans h1.1, h2.2.1.trans h1.2.1, h2.2.2.trans h1.2.2⟩

theorem DS.processToolCall_preserve (env : DS.Env) (req : Req) (tc : DS.DSToolCall)
    (ls : DS.LoopSt) (st : DS.St) :
    (DS.processToolCall env req tc ls st).2.calls = st.calls ∧
    (DS.processToolCall env req tc ls st).1.iterationCount = ls.iterationCount ∧
    (DS.processToolCall env req tc ls st).1.currentResponse = ls.currentResponse ∧
    (DS.processToolCall env req tc ls st).1.content = ls.content ∧
    (DS.processToolCall env req tc ls st).1.hasUsedForcedTool = ls.hasUsedForcedTool := by
  rcases hj : env.parseJson tc.function.arguments with e | args
  · simp [DS.processToolCall, hj]
  · rcases hf : List.find? (fun t => t.id == tc.function.name) (req.tools.getD []) with _ | tool
    · simp [DS.processToolCall, hj, hf]
    · rcases hx : env.toolExec tc.function.name (spreadMerge tool.params args) with e | result
      · simp [DS.processToolCall, hj, hf, hx, tick]
      · rcases hs : result.success with _ | _
        · simp [DS.processToolCall, hj, hf, hx, hs, tick]
        · simp [DS.processToolCall, hj, hf, hx, hs, tick]

theorem DS.processToolCalls_preserve (env : DS.Env) (req : Req) :
    ∀ (l : List DS.DSToolCall) (ls : DS.LoopSt) (st : DS.St),
    (DS.processToolCalls env req l ls st).2.calls = st.calls ∧
    (DS.processToolCalls env req l ls st).1.iterationCount = ls.iterationCount ∧
    (DS.processToolCalls env req l ls st).1.currentResponse = ls.currentResponse ∧
    (DS.processToolCalls env req l ls st).1.content = ls.content ∧
    (DS.processToolCalls env req l ls st).1.hasUsedForcedTool = ls.hasUsedForcedTool := by
  intro l
  induction l with
  | nil => intro ls st; exact ⟨rfl, rfl, rfl, rfl, rfl⟩
  | cons tc rest ih =>
    intro ls st
    rcases hp : DS.processToolCall env req tc ls st with ⟨ls1, st1⟩
    have h1 := DS.processToolCall_preserve env req tc ls st
    rw [hp] at h1
    have h2 := ih ls1 st1
    simp only [DS.processToolCalls, hp]
    exact ⟨h2.1.trans h1.1, h2.2.1.trans h1.2.1, h2.2.2.1.trans h1.2.2.1,
      h2.2.2.2.1.trans h1.2.2.2.1, h2.2.2.2.2.trans h1.2.2.2.2⟩

/-! Helper lemmas: one pass of the loop body issues exactly one vendor call,
whose payload inherits the original payload's model id, bumps the iteration
counter by one, and installs the vendor's response. -/

theorem Anth.loopBody_ok_spec (env : Anth.Env) (req : Req) (payload : Anth.Payload)
    (otc : Option Anth.ToolChoiceA) (ft : List String) (ls : Anth.LoopSt) (st : Anth.St)
    (resp : Anth.Response) (h : env.vendor st.calls.length = Except.ok resp) :
    ∃ ls1 st1, Anth.loopBody env req payload otc ft ls st = (Except.ok ls1, st1) ∧
      ls1.iterationCount = ls.iterationCount + 1 ∧
      ls1.currentResponse = resp ∧
      st1.calls.length = st.calls.length + 1 ∧
      ∀ q ∈ st1.calls, q ∈ st.calls ∨ q.model = payload.model := by
  rcases hp : Anth.processToolUses env req (Anth.toolUsesOf ls.currentResponse) ls
      { st with clock := st.clock + 1 } with ⟨lsA, stA⟩
  have hpre := Anth.processToolUses_preserve env req (Anth.toolUsesOf ls.currentResponse) ls
      { st with clock := st.clock + 1 }
  rw [hp] at hpre
  have hlen : stA.calls = st.calls := hpre.1
  have hit : lsA.iterationCount = ls.iterationCount := hpre.2.1
  simp only [Anth.loopBody, tick, hp, Anth.callVendor, hlen, h]
  refine ⟨_, _, rfl, ?_, rfl, ?_, ?_⟩
  · simp [hit]
  · simp [hlen]
  · intro q hq
    simp only [hlen] at hq
    rcases List.mem_append.mp hq with hmem | hmem
    · exact Or.inl hmem
    · right
      rcases List.mem_singleton.mp hmem with rfl
      rfl

theorem Anth.loopBody_err_spec (env : Anth.Env) (req : Req) (payload : Anth.Payload)
    (otc : Option Anth.ToolChoiceA) (ft : List String) (ls : Anth.LoopSt) (st : Anth.St)
    (e : String) (h : env.vendor st.calls.length = Except.error e) :
    ∃ st1, Anth.loopBody env req payload otc ft ls st = (Except.error e, st1) ∧
      st1.calls.length = st.calls.length + 1 ∧
      ∀ q ∈ st1.calls, q ∈ st.calls ∨ q.model = payload.model := by
  rcases hp : Anth.processToolUses env req (Anth.toolUsesOf ls.currentResponse) ls
      { st with clock := st.clock + 1 } with ⟨lsA, stA⟩
  have hpre := Anth.processToolUses_preserve env req (Anth.toolUsesOf ls.currentResponse) ls
      { st with clock := st.clock + 1 }
  rw [hp] at hpre
  have hlen : stA.calls = st.calls := hpre.1
  simp only [Anth.loopBody, tick, hp, Anth.callVendor, hlen, h]
  refine ⟨_, rfl, ?_, ?_⟩
  · simp [hlen]
  · intro q hq
    simp only [hlen] at hq
    rcases List.mem_append.mp hq with hmem | hmem
    · exact Or.inl hmem
    · right
      rcases List.mem_singleton.mp hmem with rfl
      rfl

theorem Anth.loopGo_count (env : Anth.Env) (req : Req) (payload : Anth.Payload)
    (otc : Option Anth.ToolChoiceA) (ft : List String) (H : Anth.vendorOkTool env) :
    ∀ (fuel : Nat) (ls : Anth.LoopSt) (st : Anth.St),
    Anth.toolUsesOf ls.currentResponse ≠ [] →
    ls.iterationCount + fuel ≤ Anth.MAX_ITERATIONS →
    ∃ ls1 st1, Anth.loopGo env req payload otc ft fuel ls st = (Except.ok ls1, st1) ∧
      ls1.iterationCount = ls.iterationCount + fuel ∧
      st1.calls.length = st.calls.length + fuel := by
  intro fuel
  induction fuel with
  | zero => intro ls st _ _; exact ⟨ls, st, rfl, rfl, rfl⟩
  | succ fuel ih =>
    intro ls st htu hle
    have hguard : ls.iterationCount < Anth.MAX_ITERATIONS := by
      unfold Anth.MAX_ITERATIONS at hle ⊢
      omega
    obtain ⟨resp, hresp, hrtu⟩ := H st.calls.length
    obtain ⟨ls1, st1, hbody, hbit, hbcr, hbcalls, _⟩ :=
      Anth.loopBody_ok_spec env req payload otc ft ls st resp hresp
    rcases hscr : Anth.toolUsesOf ls.currentResponse with _ | ⟨tu, tus⟩
    · exact absurd hscr htu
    · obtain ⟨ls2, st2, hrec, hrit, hrcalls⟩ := ih ls1 st1
        (by rw [hbcr]; exact hrtu)
        (by rw [hbit]; unfold Anth.MAX_ITERATIONS at hle ⊢; omega)
      refine ⟨ls2, st2, ?_, ?_, ?_⟩
      · simp only [Anth.loopGo, if_pos hguard, hscr, hbody, hrec]
      · rw [hrit, hbit]
        omega
      · rw [hrcalls, hbcalls]
        omega

theorem Anth.loopGo_calls_spec (env : Anth.Env) (req : Req) (payload : Anth.Payload)
    (otc : Option Anth.ToolChoiceA) (ft : List String) :
    ∀ (fuel : Nat) (ls : Anth.LoopSt) (st : Anth.St),
    (∀ j, j < st.calls.length → (env.vendor j).isOk = true) →
    (match Anth.loopGo env req payload otc ft fuel ls st with
     | (.ok _, st1) => ∀ j, j < st1.calls.length → (env.vendor j).isOk = true
     | (.error e, st1) => ∃ i, st1.calls.length = i + 1 ∧ env.vendor i = Except.error e ∧
         ∀ j, j < i → (env.vendor j).isOk = true) := by
  intro fuel
  induction fuel with
  | zero => intro ls st h0; exact h0
  | succ fuel ih =>
    intro ls st h0
    by_cases hguard : ls.iterationCount < Anth.MAX_ITERATIONS
    · rcases hscr : Anth.toolUsesOf ls.currentResponse with _ | ⟨tu, tus⟩
      · simp only [Anth.loopGo, if_pos hguard, hscr]
        exact h0
      · rcases hv : env.vendor st.calls.length with e | resp
        · obtain ⟨st1, hbody, hlen, _⟩ :=
            Anth.loopBody_err_spec env req payload otc ft ls st e hv
          simp only [Anth.loopGo, if_pos hguard, hscr, hbody]
          exact ⟨st.calls.length, hlen, hv, h0⟩
        · obtain ⟨ls1, st1, hbody, _, _, hlen, _⟩ :=
            Anth.loopBody_ok_spec env req payload otc ft ls st resp hv
          simp only [Anth.loopGo, if_pos hguard, hscr, hbody]
          apply ih ls1 st1
          intro j hj
          rw [hlen] at hj
          rcases Nat.lt_succ_iff_lt_or_eq.mp hj with hc | hc
          · exact h0 j hc
          · rw [hc, hv]
            rfl
    · simp only [Anth.loopGo, if_neg hguard]
      exact h0

theorem Anth.loopGo_model_inv (env : Anth.Env) (req : Req) (payload : Anth.Payload)
    (otc : Option Anth.ToolChoiceA) (ft : List String) :
    ∀ (fuel : Nat) (ls : Anth.LoopSt) (st : Anth.St),
    (∀ q ∈ st.calls, q.model = payload.model) →
    ∀ q ∈ (Anth.loopGo env req payload otc ft fuel ls st).2.calls, q.model = payload.model := by
  intro fuel
  induction fuel with
  | zero => intro ls st h0; exact h0
  | succ fuel ih =>
    intro ls st h0
    by_cases hguard : ls.iterationCount < Anth.MAX_ITERATIONS
    · rcases hscr : Anth.toolUsesOf ls.currentResponse with _ | ⟨tu, tus⟩
      · simp only [Anth.loopGo, if_pos hguard, hscr]
        exact h0
      · rcases hv : env.vendor st.calls.length with e | resp
        · obtain ⟨st1, hbody, _, hmem⟩ :=
            Anth.loopBody_err_spec env req payload otc ft ls st e hv
          simp only [Anth.loopGo, if_pos hguard, hscr, hbody]
          intro q hq
          rcases hmem q hq with hc | hc
          · exact h0 q hc
          · exact hc
        · obtain ⟨ls1, st1, hbody, _, _, _, hmem⟩ :=
            Anth.loopBody_ok_spec env req payload otc ft ls st resp hv
          simp only [Anth.loopGo, if_pos hguard, hscr, hbody]
          apply ih ls1 st1
          intro q hq
          rcases hmem q hq with hc | hc
          · exact h0 q hc
          · exact hc
    · simp only [Anth.loopGo, if_neg hguard]
      exact h0

theorem DS.loopBodyD_ok_spec (env : DS.Env) (req : Req) (payload : DS.Payload)
    (otc : Option DS.DSToolChoice) (tcs : List DS.DSToolCall) (ls : DS.LoopSt) (st : DS.St)
    (resp : DS.Response) (h : env.vendor st.calls.length = Except.ok resp) :
    ∃ ls1 st1, DS.loopBody env req payload otc tcs ls st = (Except.ok ls1, st1) ∧
      ls1.iterationCount = ls.iterationCount + 1 ∧
      ls1.currentResponse = resp ∧
      st1.calls.length = st.calls.length + 1 ∧
      (∀ q ∈ st1.calls, q ∈ st.calls ∨ q.model = payload.model) ∧
      (ls1.content = ls.content ∨ ∃ s, ls1.content = DS.cleanContent s) := by
  rcases hp : DS.processToolCalls env req tcs ls { st with clock := st.clock + 1 }
    with ⟨lsA, stA⟩
  have hpre := DS.processToolCalls_preserve env req tcs ls { st with clock := st.clock + 1 }
  rw [hp] at hpre
  have hlen : stA.calls = st.calls := hpre.1
  have hit : lsA.iterationCount = ls.iterationCount := hpre.2.1
  have hcont : lsA.content = ls.content := hpre.2.2.2.1
  simp only [DS.loopBody, tick, hp, DS.callVendor, hlen, h]
  refine ⟨_, _, rfl, ?_, rfl, ?_, ?_, ?_⟩
  · simp [hit]
  · simp [hlen]
  · intro q hq
    simp only [hlen] at hq
    rcases List.mem_append.mp hq with hmem | hmem
    · exact Or.inl hmem
    · right
      rcases List.mem_singleton.mp hmem with rfl
      rfl
  · show (match DS.msgContentOf resp with
      | some c => if c = "" then lsA.content else DS.cleanContent c
      | none => lsA.content) = ls.content ∨ _
    rcases hm : DS.msgContentOf resp with _ | c
    · exact Or.inl hcont
    · by_cases hc : c = ""
      · simp [hc, hcont]
      · right
        exact ⟨c, by simp [hc]⟩

theorem DS.loopBodyD_err_spec (env : DS.Env) (req : Req) (payload : DS.Payload)
    (otc : Option DS.DSToolChoice) (tcs : List DS.DSToolCall) (ls : DS.LoopSt) (st : DS.St)
    (e : String) (h : env.vendor st.calls.length = Except.error e) :
    ∃ ls1 st1, DS.loopBody env req payload otc tcs ls st = (Except.error ls1, st1) ∧
      ls1.content = ls.content ∧
      st1.calls.length = st.calls.length + 1 ∧
      ∀ q ∈ st1.calls, q ∈ st.calls ∨ q.model = payload.model := by
  rcases hp : DS.processToolCalls env req tcs ls { st with clock := st.clock + 1 }
    with ⟨lsA, stA⟩
  have hpre := DS.processToolCalls_preserve env req tcs ls { st with clock := st.clock + 1 }
  rw [hp] at hpre
  have hlen : stA.calls = st.calls := hpre.1
  have hcont : lsA.content = ls.content := hpre.2.2.2.1
  simp only [DS.loopBody, tick, hp, DS.callVendor, hlen, h]
  refine ⟨_, _, rfl, ?_, ?_, ?_⟩
  · exact hcont
  · simp [hlen]
  · intro q hq
    simp only [hlen] at hq
    rcases List.mem_append.mp hq with hmem | hmem
    · exact Or.inl hmem
    · right
      rcases List.mem_singleton.mp hmem with rfl
      rfl

theorem DS.loopGoD_count (env : DS.Env) (req : Req) (payload : DS.Payload)
    (otc : Option DS.DSToolChoice) (H : DS.vendorOkTool env) :
    ∀ (fuel : Nat) (ls : DS.LoopSt) (st : DS.St),
    (∃ tc tcs, DS.toolCallsOf ls.currentResponse = some (tc :: tcs)) →
    ls.iterationCount + fuel ≤ DS.MAX_ITERATIONS →
    ∃ ls1 st1, DS.loopGo env req payload otc fuel ls st = (ls1, st1) ∧
      ls1.iterationCount = ls.iterationCount + fuel ∧
      st1.calls.length = st.calls.length + fuel := by
  intro fuel
  induction fuel with
  | zero => intro ls st _ _; exact ⟨ls, st, rfl, rfl, rfl⟩
  | succ fuel ih =>
    intro ls st htc hle
    have hguard : ls.iterationCount < DS.MAX_ITERATIONS := by
      unfold DS.MAX_ITERATIONS at hle ⊢
      omega
    obtain ⟨tc, tcs, hscr⟩ := htc
    obtain ⟨resp, rtc, rtcs, hresp, hrtc⟩ := H st.calls.length
    obtain ⟨ls1, st1, hbody, hbit, hbcr, hbcalls, _, _⟩ :=
      DS.loopBodyD_ok_spec env req payload otc (tc :: tcs) ls st resp hresp
    obtain ⟨ls2, st2, hrec, hrit, hrcalls⟩ := ih ls1 st1
      (by rw [hbcr]; exact ⟨rtc, rtcs, hrtc⟩)
      (by rw [hbit]; unfold DS.MAX_ITERATIONS at hle ⊢; omega)
    refine ⟨ls2, st2, ?_, ?_, ?_⟩
    · simp only [DS.loopGo, if_pos hguard, hscr, hbody, hrec]
    · rw [hrit, hbit]
      omega
    · rw [hrcalls, hbcalls]
      omega

theorem DS.loopGoD_model_inv (env : DS.Env) (req : Req) (payload : DS.Payload)
    (otc : Option DS.DSToolChoice) :
    ∀ (fuel : Nat) (ls : DS.LoopSt) (st : DS.St),
    (∀ q ∈ st.calls, q.model = payload.model) →
    ∀ q ∈ (DS.loopGo env req payload otc fuel ls st).2.calls, q.model = payload.model := by
  intro fuel
  induction fuel with
  | zero => intro ls st h0; exact h0
  | succ fuel ih =>
    intro ls st h0
    by_cases hguard : ls.iterationCount < DS.MAX_ITERATIONS
    · rcases hscr : DS.toolCallsOf ls.currentResponse with _ | tcs0
      · simp only [DS.loopGo, if_pos hguard, hscr]
        exact h0
      · rcases htcs : tcs0 with _ | ⟨tc, tcs⟩
        · simp only [DS.loopGo, if_pos hguard, hscr, htcs]
          exact h0
        · rcases hv : env.vendor st.calls.length with e | resp
          · obtain ⟨ls1, st1, hbody, _, _, hmem⟩ :=
              DS.loopBodyD_err_spec env req payload otc (tc :: tcs) ls st e hv
            simp only [DS.loopGo, if_pos hguard, hscr, htcs, hbody]
            intro q hq
            rcases hmem q hq with hc | hc
            · exact h0 q hc
            · exact hc
          · obtain ⟨ls1, st1, hbody, _, _, _, hmem, _⟩ :=
              DS.loopBodyD_ok_spec env req payload otc (tc :: tcs) ls st resp hv
            simp only [DS.loopGo, if_pos hguard, hscr, htcs, hbody]
            apply ih ls1 st1
            intro q hq
            rcases hmem q hq with hc | hc
            · exact h0 q hc
            · exact hc
    · simp only [DS.loopGo, if_neg hguard]
      exact h0

theorem DS.loopGo_content_inv (env : DS.Env) (req : Req) (payload : DS.Payload)
    (otc : Option DS.DSToolChoice) :
    ∀ (fuel : Nat) (ls : DS.LoopSt) (st : DS.St),
    (∃ s, ls.content = DS.cleanContent s) →
    ∃ s, (DS.loopGo env req payload otc fuel ls st).1.content = DS.cleanContent s := by
  intro fuel
  induction fuel with
  | zero => intro ls st h0; exact h0
  | succ fuel ih =>
    intro ls st h0
    by_cases hguard : ls.iterationCount < DS.MAX_ITERATIONS
    · rcases hscr : DS.toolCallsOf ls.currentResponse with _ | tcs0
      · simp only [DS.loopGo, if_pos hguard, hscr]
        exact h0
      · rcases htcs : tcs0 with _ | ⟨tc, tcs⟩
        · simp only [DS.loopGo, if_pos hguard, hscr, htcs]
          exact h0
        · rcases hv : env.vendor st.calls.length with e | resp
          · obtain ⟨ls1, st1, hbody, hcont, _, _⟩ :=
              DS.loopBodyD_err_spec env req payload otc (tc :: tcs) ls st e hv
            simp only [DS.loopGo, if_pos hguard, hscr, htcs, hbody]
            rw [hcont]
            exact h0
          · obtain ⟨ls1, st1, hbody, _, _, _, _, hcont⟩ :=
              DS.loopBodyD_ok_spec env req payload otc (tc :: tcs) ls st resp hv
            simp only [DS.loopGo, if_pos hguard, hscr, htcs, hbody]
            apply ih ls1 st1
            rcases hcont with hc | hc
            · rw [hc]
              exact h0
            · exact hc
    · simp only [DS.loopGo, if_neg hguard]
      exact h0

/-! Helper lemmas: the setup phase issues no vendor calls, and the payload's
model id is fixed before the loop starts. -/

theorem Anth.normalizeMsgs_calls (env : Anth.Env) :
    ∀ (l : List Msg) (st : Anth.St), (Anth.normalizeMsgs env l st).2.calls = st.calls := by
  intro l
  induction l with
  | nil => intro st; rfl
  | cons m rest ih =>
    intro st
    by_cases hr : m.role == "function"
    · rcases hrec : Anth.normalizeMsgs env rest st with ⟨res, st1⟩
      have hthis : st1.calls = st.calls := by
        have := ih st
        rw [hrec] at this
        exact this
      rcases res with e | tail <;>
        (simp only [Anth.normalizeMsgs, hr, hrec]; exact hthis)
    · rcases hfc : m.function_call with _ | fc
      · rcases hrec : Anth.normalizeMsgs env rest st with ⟨res, st1⟩
        have hthis : st1.calls = st.calls := by
          have := ih st
          rw [hrec] at this
          exact this
        rcases res with e | tail <;>
          (simp only [Anth.normalizeMsgs, hr, hfc, hrec, Bool.false_eq_true, if_false]; exact hthis)
      · rcases hpj : env.parseJson fc.arguments with e | args
        · simp [Anth.normalizeMsgs, hr, hfc, hpj, tick]
        · rcases hrec : Anth.normalizeMsgs env rest { st with clock := st.clock + 1 }
            with ⟨res, st1⟩
          have hthis : st1.calls = st.calls := by
            have := ih { st with clock := st.clock + 1 }
            rw [hrec] at this
            exact this
          rcases res with e | tail <;>
            (simp only [Anth.normalizeMsgs, hr, hfc, hpj, hrec, tick, Bool.false_eq_true,
              if_false]; exact hthis)

theorem Anth.buildSetup_calls (env : Anth.Env) (req : Req) (st : Anth.St) :
    (Anth.buildSetup env req st).2.calls = st.calls := by
  rcases hn : Anth.normalizeMsgs env (req.messages.getD []) st with ⟨res, st1⟩
  have hc : st1.calls = st.calls := by
    have := Anth.normalizeMsgs_calls env (req.messages.getD []) st
    rw [hn] at this
    exact this
  rcases res with e | msgs <;> (simp only [Anth.buildSetup, hn]; exact hc)

theorem Anth.buildSetup_model (env : Anth.Env) (req : Req) (st : Anth.St) (setup : Anth.Setup)
    (h : (Anth.buildSetup env req st).1 = Except.ok setup) :
    setup.payload.model = Anth.modelOrDefault req := by
  rcases hn : Anth.normalizeMsgs env (req.messages.getD []) st with ⟨res, st1⟩
  rcases res with e | msgs
  · simp [Anth.buildSetup, hn] at h
  · simp only [Anth.buildSetup, hn] at h
    repeat' split at h
    all_goals simp_all
    all_goals (subst h; rfl)

theorem DS.buildPayload_model (req : Req) : (DS.buildPayload req).model = "deepseek-chat" := by
  unfold DS.buildPayload
  repeat' split
  all_goals simp_all
  all_goals split
  all_goals rfl

/-! Helper lemmas at the `executeRequest` level. -/

theorem Anth.execA_count (env : Anth.Env) (req : Req)
    (hkey : req.apiKey ≠ "")
    (hsetup : (Anth.buildSetup env req initSt).1.isOk = true)
    (H : Anth.vendorOkTool env) :
    (Anth.executeRequest env req).1.isOk = true ∧
    (Anth.executeRequest env req).2.calls.length = 11 ∧
    iterationsOfA (Anth.executeRequest env req).1 = some 11 := by
  rcases hbs : Anth.buildSetup env req initSt with ⟨bres, st0⟩
  have hc0 : st0.calls = [] := by
    have := Anth.buildSetup_calls env req initSt
    rw [hbs] at this
    exact this
  rcases bres with e | setup
  · rw [hbs] at hsetup
    simp [Except.isOk, Except.toBool] at hsetup
  · obtain ⟨r0, hr0, htu0⟩ := H 0
    have hr0' : env.vendor st0.calls.length = Except.ok r0 := by
      rw [hc0]
      exact hr0
    obtain ⟨ls1, st1, hloop, hit, hlen⟩ :=
      Anth.loopGo_count env req setup.payload setup.payload.tool_choice setup.forcedTools H
        Anth.MAX_ITERATIONS
        (Anth.initLoopSt setup r0 (st0.clock + 1) (st0.clock + 1 + 1 - (st0.clock + 1)))
        { clock := st0.clock + 1 + 1 + 1, calls := st0.calls ++ [setup.payload] }
        (by simpa [Anth.initLoopSt] using htu0)
        (by simp [Anth.initLoopSt, Anth.MAX_ITERATIONS])
    simp only [Anth.initLoopSt] at hit
    simp only [Anth.executeRequest, if_neg hkey, hbs, Anth.tryBody, tick, Anth.callVendor,
      hr0', hloop, iterationsOfA]
    refine ⟨rfl, ?_, ?_⟩
    · simp only [hlen, hc0]
      rfl
    · rw [hit]
      rfl

theorem Anth.execA_err (env : Anth.Env) (req : Req) (i : Nat) (e : String)
    (hkey : req.apiKey ≠ "")
    (hi : env.vendor i = Except.error e)
    (hlt : i < (Anth.executeRequest env req).2.calls.length) :
    errTimingMsg (Anth.executeRequest env req).1 = some e ∧
    (Anth.executeRequest env req).2.calls.length = i + 1 := by
  rcases hbs : Anth.buildSetup env req initSt with ⟨bres, st0⟩
  have hc0 : st0.calls = [] := by
    have := Anth.buildSetup_calls env req initSt
    rw [hbs] at this
    exact this
  rcases bres with e0 | setup
  · simp only [Anth.executeRequest, if_neg hkey, hbs] at hlt
    rw [hc0] at hlt
    simp at hlt
  · rcases hv0 : env.vendor st0.calls.length with e1 | r0
    · -- the initial call throws
      have hi0 : i = 0 := by
        simp only [Anth.executeRequest, if_neg hkey, hbs, Anth.tryBody, tick, Anth.callVendor,
          hv0] at hlt
        rw [hc0] at hlt
        simp at hlt
        omega
      subst hi0
      have hv0n : env.vendor 0 = Except.error e1 := by
        rw [hc0] at hv0
        simpa using hv0
      rw [hv0n] at hi
      have he : e1 = e := by injection hi
      subst he
      simp only [Anth.executeRequest, if_neg hkey, hbs, Anth.tryBody, tick, Anth.callVendor,
        hv0, errTimingMsg]
      refine ⟨trivial, ?_⟩
      rw [hc0]
      rfl
    · -- the initial call succeeds; the loop aborts at the first failing call
      have hv0n : env.vendor 0 = Except.ok r0 := by
        rw [hc0] at hv0
        simpa using hv0
      have hspec := Anth.loopGo_calls_spec env req setup.payload setup.payload.tool_choice
        setup.forcedTools Anth.MAX_ITERATIONS
        (Anth.initLoopSt setup r0 (st0.clock + 1) (st0.clock + 1 + 1 - (st0.clock + 1)))
        { clock := st0.clock + 1 + 1 + 1, calls := st0.calls ++ [setup.payload] }
        (by
          intro j hj
          rw [hc0] at hj
          simp at hj
          subst hj
          rw [hv0n]
          rfl)
      rcases hres : Anth.loopGo env req setup.payload setup.payload.tool_choice setup.forcedTools
          Anth.MAX_ITERATIONS
          (Anth.initLoopSt setup r0 (st0.clock + 1) (st0.clock + 1 + 1 - (st0.clock + 1)))
          { clock := st0.clock + 1 + 1 + 1, calls := st0.calls ++ [setup.payload] }
        with ⟨lres, st1⟩
      rw [hres] at hspec
      rcases lres with e' | ls1
      · simp only [Anth.executeRequest, if_neg hkey, hbs, Anth.tryBody, tick, Anth.callVendor,
          hv0, hres] at hlt ⊢
        obtain ⟨i', hlen', hverr', hok'⟩ := hspec
        have hii : i = i' := by
          rw [hlen'] at hlt
          rcases Nat.lt_succ_iff_lt_or_eq.mp hlt with hc | hc
          · exact absurd (hok' i hc) (by rw [hi]; simp [Except.isOk, Except.toBool])
          · exact hc
        subst hii
        rw [hi] at hverr'
        have he : e = e' := by injection hverr'
        subst he
        simp only [errTimingMsg]
        exact ⟨trivial, hlen'⟩
      · simp only [Anth.executeRequest, if_neg hkey, hbs, Anth.tryBody, tick, Anth.callVendor,
          hv0, hres] at hlt ⊢
        exact absurd (hspec i hlt) (by rw [hi]; simp [Except.isOk, Except.toBool])

theorem Anth.execA_okOrTimed (env : Anth.Env) (req : Req)
    (hkey : req.apiKey ≠ "")
    (hsetup : (Anth.buildSetup env req initSt).1.isOk = true) :
    okOrTimed (Anth.executeRequest env req).1 = true := by
  rcases hbs : Anth.buildSetup env req initSt with ⟨bres, st0⟩
  rcases bres with e | setup
  · rw [hbs] at hsetup
    simp [Except.isOk, Except.toBool] at hsetup
  · rcases htb : Anth.tryBody env req setup st0.clock { clock := st0.clock + 1, calls := st0.calls }
      with ⟨tres, st1⟩
    simp only [Anth.executeRequest, if_neg hkey, hbs, tick, htb]
    rcases tres with e | envl <;> rfl

theorem Anth.execA_model (env : Anth.Env) (req : Req) :
    (match Anth.executeRequest env req with
     | (.ok envl, stf) => ∀ q ∈ stf.calls, q.model = envl.model
     | (.error _, _) => True) := by
  by_cases hkey : req.apiKey = ""
  · simp [Anth.executeRequest, hkey]
  · rcases hbs : Anth.buildSetup env req initSt with ⟨bres, st0⟩
    have hc0 : st0.calls = [] := by
      have := Anth.buildSetup_calls env req initSt
      rw [hbs] at this
      exact this
    rcases bres with e0 | setup
    · simp [Anth.executeRequest, hkey, hbs]
    · rcases hv0 : env.vendor st0.calls.length with e1 | r0
      · simp [Anth.executeRequest, hkey, hbs, Anth.tryBody, tick, Anth.callVendor, hv0]
      · have hminv := Anth.loopGo_model_inv env req setup.payload setup.payload.tool_choice
          setup.forcedTools Anth.MAX_ITERATIONS
          (Anth.initLoopSt setup r0 (st0.clock + 1) (st0.clock + 1 + 1 - (st0.clock + 1)))
          { clock := st0.clock + 1 + 1 + 1, calls := st0.calls ++ [setup.payload] }
          (by
            intro q hq
            rw [hc0] at hq
            simp at hq
            rw [hq])
        rcases hres : Anth.loopGo env req setup.payload setup.payload.tool_choice setup.forcedTools
            Anth.MAX_ITERATIONS
            (Anth.initLoopSt setup r0 (st0.clock + 1) (st0.clock + 1 + 1 - (st0.clock + 1)))
            { clock := st0.clock + 1 + 1 + 1, calls := st0.calls ++ [setup.payload] }
          with ⟨lres, st1⟩
        rw [hres] at hminv
        simp only [Anth.executeRequest, if_neg hkey, hbs, Anth.tryBody, tick, Anth.callVendor,
          hv0, hres]
        rcases lres with e' | ls1
        · trivial
        · intro q hq
          rw [Anth.buildSetup_model env req initSt setup (by rw [hbs])] at hminv
          exact hminv q hq

theorem DS.execD_count (env : DS.Env) (req : Req)
    (hkey : req.apiKey ≠ "") (H : DS.vendorOkTool env) :
    (DS.executeRequest env req).1.isOk = true ∧
    (DS.executeRequest env req).2.calls.length = 11 ∧
    iterationsOfD (DS.executeRequest env req).1 = some 11 := by
  have hc0 : (initSt (P := DS.Payload)).calls = [] := rfl
  obtain ⟨r0, tc, tcs, hr0, htc0⟩ := H 0
  have hr0' : env.vendor (initSt (P := DS.Payload)).calls.length = Except.ok r0 := hr0
  obtain ⟨ls1, st1, hloop, hit, hlen⟩ :=
    DS.loopGoD_count env req (DS.buildPayload req) (DS.buildPayload req).tool_choice H
      DS.MAX_ITERATIONS
      (DS.initLoopSt req r0 ((initSt (P := DS.Payload)).clock + 1)
        ((initSt (P := DS.Payload)).clock + 1 + 1 - ((initSt (P := DS.Payload)).clock + 1)))
      { clock := (initSt (P := DS.Payload)).clock + 1 + 1 + 1
        calls := (initSt (P := DS.Payload)).calls ++ [DS.buildPayload req] }
      ⟨tc, tcs, by simpa [DS.initLoopSt] using htc0⟩
      (by simp [DS.initLoopSt, DS.MAX_ITERATIONS])
  simp only [DS.initLoopSt] at hit
  simp only [DS.executeRequest, if_neg hkey, DS.tryBody, tick, DS.callVendor, hr0', hloop,
    iterationsOfD]
  refine ⟨rfl, ?_, ?_⟩
  · simp only [hlen, hc0]
    rfl
  · rw [hit]
    rfl

theorem DS.execD_err0 (env : DS.Env) (req : Req) (e : String)
    (hkey : req.apiKey ≠ "") (hv : env.vendor 0 = Except.error e) :
    errTimingMsg (DS.executeRequest env req).1 = some e ∧
    (DS.executeRequest env req).2.calls.length = 1 := by
  have hv' : env.vendor (initSt (P := DS.Payload)).calls.length = Except.error e := hv
  simp only [DS.executeRequest, if_neg hkey, DS.tryBody, tick, DS.callVendor, hv', errTimingMsg]
  exact ⟨trivial, rfl⟩

theorem DS.execD_ok0 (env : DS.Env) (req : Req) (r0 : DS.Response)
    (hkey : req.apiKey ≠ "") (hv : env.vendor 0 = Except.ok r0) :
    (DS.executeRequest env req).1.isOk = true := by
  have hv' : env.vendor (initSt (P := DS.Payload)).calls.length = Except.ok r0 := hv
  rcases hres : DS.loopGo env req (DS.buildPayload req) (DS.buildPayload req).tool_choice
      DS.MAX_ITERATIONS
      (DS.initLoopSt req r0 ((initSt (P := DS.Payload)).clock + 1)
        ((initSt (P := DS.Payload)).clock + 1 + 1 - ((initSt (P := DS.Payload)).clock + 1)))
      { clock := (initSt (P := DS.Payload)).clock + 1 + 1 + 1
        calls := (initSt (P := DS.Payload)).calls ++ [DS.buildPayload req] }
    with ⟨ls1, st1⟩
  simp only [DS.executeRequest, if_neg hkey, DS.tryBody, tick, DS.callVendor, hv', hres]
  rfl

theorem DS.execD_okOrTimed (env : DS.Env) (req : Req) (hkey : req.apiKey ≠ "") :
    okOrTimed (DS.executeRequest env req).1 = true := by
  rcases htb : DS.tryBody env req (initSt (P := DS.Payload)).clock
      { clock := (initSt (P := DS.Payload)).clock + 1, calls := (initSt (P := DS.Payload)).calls }
    with ⟨tres, st1⟩
  simp only [DS.executeRequest, if_neg hkey, tick, htb]
  rcases tres with e | envl <;> rfl

theorem DS.execD_model (env : DS.Env) (req : Req) :
    (match DS.executeRequest env req with
     | (.ok envl, stf) => envl.model = req.model ∧ ∀ q ∈ stf.calls, q.model = "deepseek-chat"
     | (.error _, _) => True) := by
  by_cases hkey : req.apiKey = ""
  · simp [DS.executeRequest, hkey]
  · rcases hv0 : env.vendor (initSt (P := DS.Payload)).calls.length with e | r0
    · simp [DS.executeRequest, hkey, DS.tryBody, tick, DS.callVendor, hv0]
    · have hminv := DS.loopGoD_model_inv env req (DS.buildPayload req)
        (DS.buildPayload req).tool_choice DS.MAX_ITERATIONS
        (DS.initLoopSt req r0 ((initSt (P := DS.Payload)).clock + 1)
          ((initSt (P := DS.Payload)).clock + 1 + 1 - ((initSt (P := DS.Payload)).clock + 1)))
        { clock := (initSt (P := DS.Payload)).clock + 1 + 1 + 1
          calls := (initSt (P := DS.Payload)).calls ++ [DS.buildPayload req] }
        (by
          intro q hq
          simp only [initSt] at hq
          simp at hq
          subst hq
          rfl)
      rcases hres : DS.loopGo env req (DS.buildPayload req) (DS.buildPayload req).tool_choice
          DS.MAX_ITERATIONS
          (DS.initLoopSt req r0 ((initSt (P := DS.Payload)).clock + 1)
            ((initSt (P := DS.Payload)).clock + 1 + 1 - ((initSt (P := DS.Payload)).clock + 1)))
          { clock := (initSt (P := DS.Payload)).clock + 1 + 1 + 1
            calls := (initSt (P := DS.Payload)).calls ++ [DS.buildPayload req] }
        with ⟨ls1, st1⟩
      rw [hres] at hminv
      simp only [DS.executeRequest, if_neg hkey, DS.tryBody, tick, DS.callVendor, hv0, hres]
      refine ⟨trivial, ?_⟩
      intro q hq
      have hm := hminv q hq
      rw [DS.buildPayload_model req] at hm
      exact hm

theorem DS.execD_content (env : DS.Env) (req : Req) :
    (match DS.executeRequest env req with
     | (.ok envl, _) => ∃ s, envl.content = DS.cleanContent s
     | (.error _, _) => True) := by
  by_cases hkey : req.apiKey = ""
  · simp [DS.executeRequest, hkey]
  · rcases hv0 : env.vendor (initSt (P := DS.Payload)).calls.length with e | r0
    · simp [DS.executeRequest, hkey, DS.tryBody, tick, DS.callVendor, hv0]
    · have hcinv := DS.loopGo_content_inv env req (DS.buildPayload req)
        (DS.buildPayload req).tool_choice DS.MAX_ITERATIONS
        (DS.initLoopSt req r0 ((initSt (P := DS.Payload)).clock + 1)
          ((initSt (P := DS.Payload)).clock + 1 + 1 - ((initSt (P := DS.Payload)).clock + 1)))
        { clock := (initSt (P := DS.Payload)).clock + 1 + 1 + 1
          calls := (initSt (P := DS.Payload)).calls ++ [DS.buildPayload req] }
        ⟨(DS.msgContentOf r0).getD "", rfl⟩
      rcases hres : DS.loopGo env req (DS.buildPayload req) (DS.buildPayload req).tool_choice
          DS.MAX_ITERATIONS
          (DS.initLoopSt req r0 ((initSt (P := DS.Payload)).clock + 1)
            ((initSt (P := DS.Payload)).clock + 1 + 1 - ((initSt (P := DS.Payload)).clock + 1)))
          { clock := (initSt (P := DS.Payload)).clock + 1 + 1 + 1
            calls := (initSt (P := DS.Payload)).calls ++ [DS.buildPayload req] }
        with ⟨ls1, st1⟩
      rw [hres] at hcinv
      simp only [DS.executeRequest, if_neg hkey, DS.tryBody, tick, DS.callVendor, hv0, hres]
      exact hcinv

/-! Helper lemmas for the greedy brace isolation. -/

theorem hasCharL_append (c : Char) :
    ∀ (l1 l2 : List Char), hasCharL (l1 ++ l2) c = (hasCharL l1 c || hasCharL l2 c) := by
  intro l1 l2
  induction l1 with
  | nil => simp [hasCharL]
  | cons x rest ih => simp [hasCharL, ih, Bool.or_assoc]

theorem firstIdxOf_append_of_not_has (c : Char) :
    ∀ (l1 l2 : List Char), hasCharL l1 c = false →
    firstIdxOf (l1 ++ l2) c = (firstIdxOf l2 c).map (· + l1.length) := by
  intro l1
  induction l1 with
  | nil =>
    intro l2 _
    rcases h2 : firstIdxOf l2 c with _ | j <;> simp [h2]
  | cons x rest ih =>
    intro l2 h
    simp only [hasCharL, Bool.or_eq_false_iff, decide_eq_false_iff_not] at h
    simp only [List.cons_append, firstIdxOf, if_neg h.1]
    rcases h2 : firstIdxOf l2 c with _ | j
    · simp [ih l2 h.2, h2]
    · simp [ih l2 h.2, h2]
      omega

theorem lastIdxOf_eq_none_of_not_has (c : Char) :
    ∀ (l : List Char), hasCharL l c = false → lastIdxOf l c = none := by
  intro l
  induction l with
  | nil => intro _; rfl
  | cons x rest ih =>
    intro h
    simp only [hasCharL, Bool.or_eq_false_iff, decide_eq_false_iff_not] at h
    simp only [lastIdxOf, ih h.2, if_neg h.1]

theorem lastIdxOf_append (c : Char) :
    ∀ (l1 l2 : List Char),
    lastIdxOf (l1 ++ l2) c =
      (match lastIdxOf l2 c with
       | some j => some (l1.length + j)
       | none => lastIdxOf l1 c) := by
  intro l1
  induction l1 with
  | nil =>
    intro l2
    rcases h2 : lastIdxOf l2 c with _ | j <;> simp [h2, lastIdxOf]
  | cons x rest ih =>
    intro l2
    rw [List.cons_append]
    rw [show lastIdxOf (x :: (rest ++ l2)) c =
        (match lastIdxOf (rest ++ l2) c with
         | some i => some (i + 1)
         | none => if x = c then some 0 else none) from rfl]
    rw [ih l2]
    rcases h2 : lastIdxOf l2 c with _ | j
    · rcases h1 : lastIdxOf rest c with _ | i <;> simp [h1, h2, lastIdxOf]
    · simp [h2]
      omega

theorem lastIdxOf_of_getLast (c : Char) :
    ∀ (l : List Char), l.getLast? = some c → lastIdxOf l c = some (l.length - 1) := by
  intro l
  induction l with
  | nil => intro h; simp at h
  | cons x rest ih =>
    intro h
    rcases rest with _ | ⟨y, rest'⟩
    · simp at h
      subst h
      simp [lastIdxOf]
    · have hg : (y :: rest').getLast? = some c := by
        rw [← h]
        simp [List.getLast?]
      have hr := ih hg
      rw [show lastIdxOf (x :: y :: rest') c =
          (match lastIdxOf (y :: rest') c with
           | some i => some (i + 1)
           | none => if x = c then some 0 else none) from rfl]
      rw [hr]
      simp [List.length_cons]

theorem firstIdxOf_head (c : Char) (rest : List Char) :
    firstIdxOf (c :: rest) c = some 0 := by
  simp [firstIdxOf]

theorem hasCharL_of_getLast (c : Char) :
    ∀ (l : List Char), l.getLast? = some c → hasCharL l c = true := by
  intro l
  induction l with
  | nil => intro h; simp at h
  | cons x rest ih =>
    intro h
    rcases rest with _ | ⟨y, rest'⟩
    · simp at h
      subst h
      simp [hasCharL]
    · have hg : (y :: rest').getLast? = some c := by
        rw [← h]
        simp [List.getLast?]
      have hr := ih hg
      simp [hasCharL] at hr
      simp [hasCharL]
      tauto

theorem extractJson_isolates (pre s post : String)
    (hpre1 : strHasChar pre '{' = false) (hpre2 : strHasChar pre '}' = false)
    (hpost1 : strHasChar post '{' = false) (hpost2 : strHasChar post '}' = false)
    (hhead : s.data.head? = some '{') (hlast : s.data.getLast? = some '}') :
    Anth.extractJson (pre ++ s ++ post) = s := by
  obtain ⟨pd⟩ := pre
  obtain ⟨sd⟩ := s
  obtain ⟨od⟩ := post
  rcases sd with _ | ⟨c0, mid⟩
  · simp at hhead
  · have hc0 : c0 = '{' := by
      simp at hhead
      exact hhead
    subst hc0
    rcases mid with _ | ⟨m0, mid'⟩
    · exfalso
      simp [List.getLast?] at hlast
    · have hslast : ('{' :: m0 :: mid').getLast? = some '}' := hlast
      have hdata : (String.mk pd ++ String.mk ('{' :: m0 :: mid') ++ String.mk od).data =
          pd ++ '{' :: m0 :: (mid' ++ od) := by
        show (pd ++ ('{' :: m0 :: mid')) ++ od = pd ++ '{' :: m0 :: (mid' ++ od)
        rw [List.append_assoc]
        rfl
      have hguard1 : strHasChar (String.mk pd ++ String.mk ('{' :: m0 :: mid') ++ String.mk od)
          '{' = true := by
        show hasCharL ((pd ++ ('{' :: m0 :: mid')) ++ od) '{' = true
        rw [hasCharL_append, hasCharL_append]
        simp [hasCharL]
      have hguard2 : strHasChar (String.mk pd ++ String.mk ('{' :: m0 :: mid') ++ String.mk od)
          '}' = true := by
        show hasCharL ((pd ++ ('{' :: m0 :: mid')) ++ od) '}' = true
        rw [hasCharL_append, hasCharL_append]
        simp [hasCharL_of_getLast '}' _ hslast]
      have hfi : firstIdxOf (pd ++ '{' :: m0 :: (mid' ++ od)) '{' = some pd.length := by
        rw [show ('{' :: m0 :: (mid' ++ od) : List Char) = '{' :: (m0 :: mid' ++ od) from rfl]
        rw [firstIdxOf_append_of_not_has '{' pd _ hpre1]
        rw [firstIdxOf_head]
        simp
      have hla : lastIdxOf (pd ++ '{' :: m0 :: (mid' ++ od)) '}' =
          some (pd.length + (mid'.length + 1)) := by
        rw [lastIdxOf_append]
        rw [show ('{' :: m0 :: (mid' ++ od) : List Char) = ('{' :: m0 :: mid') ++ od from rfl]
        rw [lastIdxOf_append]
        rw [lastIdxOf_eq_none_of_not_has '}' od hpost2]
        rw [lastIdxOf_of_getLast '}' _ hslast]
        simp
      simp only [Anth.extractJson, hguard1, hguard2, Bool.and_self, if_true, hdata, hfi, hla]
      rw [if_pos (by omega : pd.length < pd.length + (mid'.length + 1))]
      have harith : pd.length + (mid'.length + 1) - pd.length + 1 =
          ('{' :: m0 :: mid').length := by
        simp
      rw [harith]
      rw [show (pd ++ '{' :: m0 :: (mid' ++ od) : List Char) =
          pd ++ (('{' :: m0 :: mid') ++ od) from rfl]
      rw [List.drop_left]
      rw [List.take_left]

/-! Helper lemmas: a failing tool invocation leaves the loop state untouched
and only advances the clock. -/

theorem Anth.processToolUse_fails (env : Anth.Env) (req : Req) (tu : Anth.ToolUseInfo)
    (ls : Anth.LoopSt) (st : Anth.St) (hf : Anth.execFails env req tu) :
    Anth.processToolUse env req tu ls st =
      (ls, { st with clock := st.clock + Anth.failTicks env req tu }) := by
  unfold Anth.execFails at hf
  split at hf
  · exact hf.elim
  · rename_i tool hfind
    split at hf
    · rename_i e hexec
      unfold Anth.processToolUse Anth.failTicks
      simp only [hfind, hexec, tick]
    · rename_i r hexec
      unfold Anth.processToolUse Anth.failTicks
      simp only [hfind, hexec, tick, hf]
      rfl

theorem DS.processToolCall_fails (env : DS.Env) (req : Req) (tc : DS.DSToolCall)
    (ls : DS.LoopSt) (st : DS.St) (hf : DS.execFails env req tc) :
    DS.processToolCall env req tc ls st =
      (ls, { st with clock := st.clock + DS.failTicks env req tc }) := by
  unfold DS.execFails at hf
  split at hf
  · rename_i hparse
    unfold DS.processToolCall DS.failTicks
    simp only [hparse]
    rfl
  · rename_i args hparse
    split at hf
    · exact hf.elim
    · rename_i tool hfind
      split at hf
      · rename_i e hexec
        unfold DS.processToolCall DS.failTicks
        simp only [hparse, hfind, hexec, tick]
      · rename_i r hexec
        unfold DS.processToolCall DS.failTicks
        simp only [hparse, hfind, hexec, tick, hf]
        rfl

/-! The claims.  Each claim has one theorem; a corrected claim also has a
closed counterexample, and a theorem with hypotheses has a closed witness. -/

set_option maxHeartbeats 4000000

set_option maxRecDepth 8000

/-- Counterexample to claim C1 as stated: under the always-tool stub both
adapters issue exactly 11 vendor calls (the initial call plus the 10 loop
iterations) and report `timing.iterations = 11`, not the claimed cap of 10. -/
theorem claim_c1_cex :
    (Anth.executeRequest toolLoopEnvA toolLoopReqA).2.calls.length = 11 ∧
    ¬ (Anth.executeRequest toolLoopEnvA toolLoopReqA).2.calls.length ≤ 10 ∧
    iterationsOfA (Anth.executeRequest toolLoopEnvA toolLoopReqA).1 = some 11 ∧
    (DS.executeRequest toolLoopEnvD toolLoopReqD).2.calls.length = 11 ∧
    iterationsOfD (DS.executeRequest toolLoopEnvD toolLoopReqD).1 = some 11 :=
  ⟨rfl, by decide, rfl, rfl, rfl⟩

/-- Claim C1, amended: when every vendor response carries a tool invocation,
both adapters return normally after exactly 11 vendor calls (the initial
call plus `MAX_ITERATIONS = 10` in-loop calls) and the envelope reports
`timing.iterations = 11` (`iterationCount + 1`). -/
theorem claim_c1 (envA : Anth.Env) (reqA : Req) (envD : DS.Env) (reqD : Req)
    (hkA : reqA.apiKey ≠ "")
    (hsA : (Anth.buildSetup envA reqA initSt).1.isOk = true)
    (HA : Anth.vendorOkTool envA)
    (hkD : reqD.apiKey ≠ "")
    (HD : DS.vendorOkTool envD) :
    ((Anth.executeRequest envA reqA).1.isOk = true ∧
     (Anth.executeRequest envA reqA).2.calls.length = 11 ∧
     iterationsOfA (Anth.executeRequest envA reqA).1 = some 11) ∧
    ((DS.executeRequest envD reqD).1.isOk = true ∧
     (DS.executeRequest envD reqD).2.calls.length = 11 ∧
     iterationsOfD (DS.executeRequest envD reqD).1 = some 11) :=
  ⟨Anth.execA_count envA reqA hkA hsA HA, DS.execD_count envD reqD hkD HD⟩

/-- Witness for claim C1 at the concrete always-tool fixtures. -/
theorem claim_c1_witness :
    toolLoopReqA.apiKey ≠ "" ∧
    (Anth.buildSetup toolLoopEnvA toolLoopReqA initSt).1.isOk = true ∧
    Anth.vendorOkTool toolLoopEnvA ∧
    toolLoopReqD.apiKey ≠ "" ∧
    DS.vendorOkTool toolLoopEnvD ∧
    (((Anth.executeRequest toolLoopEnvA toolLoopReqA).1.isOk = true ∧
      (Anth.executeRequest toolLoopEnvA toolLoopReqA).2.calls.length = 11 ∧
      iterationsOfA (Anth.executeRequest toolLoopEnvA toolLoopReqA).1 = some 11) ∧
     ((DS.executeRequest toolLoopEnvD toolLoopReqD).1.isOk = true ∧
      (DS.executeRequest toolLoopEnvD toolLoopReqD).2.calls.length = 11 ∧
      iterationsOfD (DS.executeRequest toolLoopEnvD toolLoopReqD).1 = some 11)) :=
  ⟨by decide, rfl, fun _ => ⟨toolRespA, rfl, by decide⟩, by decide,
   fun _ => ⟨toolRespD, toolCallD, [], rfl, rfl⟩,
   claim_c1 toolLoopEnvA toolLoopReqA toolLoopEnvD toolLoopReqD (by decide) rfl
     (fun _ => ⟨toolRespA, rfl, by decide⟩) (by decide)
     (fun _ => ⟨toolRespD, toolCallD, [], rfl, rfl⟩)⟩

/-- Counterexample to claim C2 as stated: in the Deepseek adapter an in-loop
vendor error does not abort the execution.  With a vendor whose second call
throws `boom`, the second call is issued (two payloads were sent) and yet
`executeRequest` returns a normal envelope. -/
theorem claim_c2_cex :
    (DS.executeRequest inLoopErrEnvD keyOnlyReq).1.isOk = true ∧
    (DS.executeRequest inLoopErrEnvD keyOnlyReq).2.calls.length = 2 ∧
    inLoopErrEnvD.vendor 1 = Except.error "boom" :=
  ⟨rfl, rfl, rfl⟩

/-- Claim C2, amended: in the Anthropic adapter any failing vendor call (the
initial one or any in-loop call, index `i`) aborts the whole execution with
the error propagated with timing attached and no retry (the failing call is
the last payload sent); in the Deepseek adapter only a failing *initial*
call aborts this way, while once the initial call succeeds `executeRequest`
returns an envelope (in-loop vendor errors are swallowed by the inner
catch, which only logs). -/
theorem claim_c2 (envA : Anth.Env) (reqA : Req) (i : Nat) (e : String)
    (hkA : reqA.apiKey ≠ "")
    (hiA : envA.vendor i = Except.error e)
    (hlt : i < (Anth.executeRequest envA reqA).2.calls.length)
    (envD : DS.Env) (reqD : Req) (e0 : String)
    (hkD : reqD.apiKey ≠ "")
    (hvD : envD.vendor 0 = Except.error e0)
    (envD2 : DS.Env) (reqD2 : Req) (r0 : DS.Response)
    (hkD2 : reqD2.apiKey ≠ "")
    (hvD2 : envD2.vendor 0 = Except.ok r0) :
    (errTimingMsg (Anth.executeRequest envA reqA).1 = some e ∧
     (Anth.executeRequest envA reqA).2.calls.length = i + 1) ∧
    (errTimingMsg (DS.executeRequest envD reqD).1 = some e0 ∧
     (DS.executeRequest envD reqD).2.calls.length = 1) ∧
    (DS.executeRequest envD2 reqD2).1.isOk = true :=
  ⟨Anth.execA_err envA reqA i e hkA hiA hlt,
   DS.execD_err0 envD reqD e0 hkD hvD,
   DS.execD_ok0 envD2 reqD2 r0 hkD2 hvD2⟩

/-- Witness for claim C2 at the concrete fixtures: a vendor that is down at
once (both adapters) and a Deepseek vendor that fails on its second call. -/
theorem claim_c2_witness :
    keyOnlyReq.apiKey ≠ "" ∧
    downEnvA.vendor 0 = Except.error "down" ∧
    0 < (Anth.executeRequest downEnvA keyOnlyReq).2.calls.length ∧
    downEnvD.vendor 0 = Except.error "d0" ∧
    inLoopErrEnvD.vendor 0 = Except.ok toolRespD ∧
    ((errTimingMsg (Anth.executeRequest downEnvA keyOnlyReq).1 = some "down" ∧
      (Anth.executeRequest downEnvA keyOnlyReq).2.calls.length = 0 + 1) ∧
     (errTimingMsg (DS.executeRequest downEnvD keyOnlyReq).1 = some "d0" ∧
      (DS.executeRequest downEnvD keyOnlyReq).2.calls.length = 1) ∧
     (DS.executeRequest inLoopErrEnvD keyOnlyReq).1.isOk = true) :=
  ⟨by decide, rfl, by decide, rfl, rfl,
   claim_c2 downEnvA keyOnlyReq 0 "down" (by decide) rfl (by decide)
     downEnvD keyOnlyReq "d0" (by decide) rfl
     inLoopErrEnvD keyOnlyReq toolRespD (by decide) rfl⟩

/-- Claim C3: the forced-tool directives, observed on the sequence of
payloads actually sent.  Anthropic with forced order `[A, B]` (`A ≠ B`):
the first payload forces `A`, after `A` fires the second forces `B`, after
`B` fires the third carries no `tool_choice`.  Deepseek with a single
forced tool `A`: the first payload forces `A`, and after `A` fires the next
directive is `auto`. -/
theorem claim_c3 (A B : String) (hAB : A ≠ B) :
    (((Anth.executeRequest (c3envA A B) (c3reqA A B)).2.calls.map
        (fun p => p.tool_choice)) =
      [some (Anth.ToolChoiceA.tool A), some (Anth.ToolChoiceA.tool B), none] ∧
     (Anth.executeRequest (c3envA A B) (c3reqA A B)).1.isOk = true) ∧
    (((DS.executeRequest (c3envD A) (c3reqD A)).2.calls.map
        (fun p => p.tool_choice)) =
      [some (DS.DSToolChoice.function A), some DS.DSToolChoice.auto] ∧
     (DS.executeRequest (c3envD A) (c3reqD A)).1.isOk = true) := by
  have hab : (A == B) = false := by
    simp [hAB]
  have hba : (B == A) = false := by
    simp [Ne.symm hAB]
  refine ⟨?_, ?_⟩
  · simp [Anth.executeRequest, Anth.buildSetup, Anth.normalizeMsgs,
      Anth.prepareToolsWithUsageControl, Anth.tryBody, Anth.initLoopSt, Anth.loopGo,
      Anth.loopBody, Anth.processToolUses, Anth.processToolUse, Anth.trackForcedToolUsage,
      Anth.nextToolChoice, Anth.callVendor, tick, initSt, Anth.extractJson, Anth.textOf,
      Anth.toolUsesOf, Anth.toolNamesOf, Anth.addUsage, Anth.initTokens, Anth.MAX_ITERATIONS,
      Anth.modelOrDefault, Anth.maxTokensOrDefault, Anth.isToolChoiceObject, Anth.forcedNameOf,
      c3envA, c3reqA, hab, hba, hAB, Ne.symm hAB, spreadMerge, joinSep, jsonQuote, jsonEscape,
      strHasChar, hasCharL, firstIdxOf, lastIdxOf, Anth.buildSchemaInstructions, Except.isOk,
      Except.toBool]
  · simp [DS.executeRequest, DS.buildPayload, DS.prepareToolsWithUsageControl, DS.tryBody,
      DS.initLoopSt, DS.loopGo, DS.loopBody, DS.processToolCalls, DS.processToolCall,
      DS.trackForcedToolUsage, DS.callVendor, tick, initSt, DS.stripFences, DS.cleanContent,
      DS.msgContentOf, DS.toolCallsOf, DS.toolNamesOf, DS.addUsage, DS.initTokens,
      DS.MAX_ITERATIONS, DS.isToolChoiceObject, DS.forcedNameOf, DS.allMessagesOf,
      c3envD, c3reqD, c3respD, spreadMerge, Except.isOk, Except.toBool, containsSub,
      strContains, jsTrim, dropWs, isWsChar]

/-- Witness for claim C3 at the concrete tool names `alpha` and `beta`. -/
theorem claim_c3_witness :
    ("alpha" : String) ≠ "beta" ∧
    ((((Anth.executeRequest (c3envA "alpha" "beta") (c3reqA "alpha" "beta")).2.calls.map
         (fun p => p.tool_choice)) =
        [some (Anth.ToolChoiceA.tool "alpha"), some (Anth.ToolChoiceA.tool "beta"), none] ∧
      (Anth.executeRequest (c3envA "alpha" "beta") (c3reqA "alpha" "beta")).1.isOk = true) ∧
     (((DS.executeRequest (c3envD "alpha") (c3reqD "alpha")).2.calls.map
         (fun p => p.tool_choice)) =
        [some (DS.DSToolChoice.function "alpha"), some DS.DSToolChoice.auto] ∧
      (DS.executeRequest (c3envD "alpha") (c3reqD "alpha")).1.isOk = true)) :=
  ⟨by decide, claim_c3 "alpha" "beta" (by decide)⟩

/-- Claim C4: with an empty credential both adapters fail at once with a
plain error (no timing attached, so the clock was never started) and the
final effect state is `initSt`: no vendor call was issued and `Date.now()`
was never read. -/
theorem claim_c4 (envA : Anth.Env) (envD : DS.Env) (req : Req)
    (hkey : req.apiKey = "") :
    Anth.executeRequest envA req =
      (Except.error (PErr.plain "API key is required for Anthropic"), initSt) ∧
    DS.executeRequest envD req =
      (Except.error (PErr.plain "API key is required for Deepseek"), initSt) := by
  constructor
  · simp [Anth.executeRequest, hkey]
  · simp [DS.executeRequest, hkey]

/-- Witness for claim C4 at the empty-credential request. -/
theorem claim_c4_witness :
    emptyKeyReq.apiKey = "" ∧
    (Anth.executeRequest downEnvA emptyKeyReq =
       (Except.error (PErr.plain "API key is required for Anthropic"), initSt) ∧
     DS.executeRequest downEnvD emptyKeyReq =
       (Except.error (PErr.plain "API key is required for Deepseek"), initSt)) :=
  ⟨rfl, claim_c4 downEnvA downEnvD emptyKeyReq rfl⟩

/-- Claim C5: a tool invocation whose execution throws or reports
`success = false` contributes nothing: processing the batch that starts
with it equals processing the remaining batch with the very same loop state
(so nothing was added to `toolCalls`, `toolResults`, the time segments or
the running message history) and only the clock advanced; in particular the
batch - and hence the request - is not aborted. -/
theorem claim_c5 (envA : Anth.Env) (reqA : Req) (tu : Anth.ToolUseInfo)
    (restA : List Anth.ToolUseInfo) (lsA : Anth.LoopSt) (stA : Anth.St)
    (envD : DS.Env) (reqD : Req) (tc : DS.DSToolCall)
    (restD : List DS.DSToolCall) (lsD : DS.LoopSt) (stD : DS.St)
    (hfA : Anth.execFails envA reqA tu)
    (hfD : DS.execFails envD reqD tc) :
    Anth.processToolUses envA reqA (tu :: restA) lsA stA =
      Anth.processToolUses envA reqA restA lsA
        { stA with clock := stA.clock + Anth.failTicks envA reqA tu } ∧
    DS.processToolCalls envD reqD (tc :: restD) lsD stD =
      DS.processToolCalls envD reqD restD lsD
        { stD with clock := stD.clock + DS.failTicks envD reqD tc } := by
  constructor
  · have h := Anth.processToolUse_fails envA reqA tu lsA stA hfA
    simp only [Anth.processToolUses, h]
  · have h := DS.processToolCall_fails envD reqD tc lsD stD hfD
    simp only [DS.processToolCalls, h]

/-- Witness for claim C5 at the concrete failing-tool fixtures. -/
theorem claim_c5_witness :
    Anth.execFails failToolEnvA toolLoopReqA tuT ∧
    DS.execFails failToolEnvD toolLoopReqD toolCallD ∧
    (Anth.processToolUses failToolEnvA toolLoopReqA (tuT :: []) emptyLoopStA
        (initSt : Anth.St) =
      Anth.processToolUses failToolEnvA toolLoopReqA [] emptyLoopStA
        { (initSt : Anth.St) with
            clock := (initSt : Anth.St).clock + Anth.failTicks failToolEnvA toolLoopReqA tuT } ∧
     DS.processToolCalls failToolEnvD toolLoopReqD (toolCallD :: []) emptyLoopStD
        (initSt : DS.St) =
      DS.processToolCalls failToolEnvD toolLoopReqD [] emptyLoopStD
        { (initSt : DS.St) with
            clock := (initSt : DS.St).clock +
              DS.failTicks failToolEnvD toolLoopReqD toolCallD }) :=
  ⟨rfl, rfl,
   claim_c5 failToolEnvA toolLoopReqA tuT [] emptyLoopStA (initSt : Anth.St)
     failToolEnvD toolLoopReqD toolCallD [] emptyLoopStD (initSt : DS.St) rfl rfl⟩

/-- Counterexample to claim C6 as stated: in the Anthropic adapter the
prior-turn normalization runs `JSON.parse` on stored `function_call`
arguments *before* the outer `try`, so with a non-empty credential a
malformed stored turn raises an error with no timing attached (and before
any vendor call). -/
theorem claim_c6_cex :
    badParseReqA.apiKey ≠ "" ∧
    okOrTimed (Anth.executeRequest badParseEnvA badParseReqA).1 = false ∧
    errTimingMsg (Anth.executeRequest badParseEnvA badParseReqA).1 = none ∧
    (Anth.executeRequest badParseEnvA badParseReqA).2.calls = [] :=
  ⟨by decide, rfl, rfl, rfl⟩

/-- Claim C6, amended: with a non-empty credential every Deepseek failure
carries timing, and every Anthropic failure carries timing provided the
pre-`try` setup (message normalization, which can throw from `JSON.parse`
on stored arguments) succeeded. -/
theorem claim_c6 (envA : Anth.Env) (reqA : Req) (envD : DS.Env) (reqD : Req)
    (hkA : reqA.apiKey ≠ "")
    (hsA : (Anth.buildSetup envA reqA initSt).1.isOk = true)
    (hkD : reqD.apiKey ≠ "") :
    okOrTimed (Anth.executeRequest envA reqA).1 = true ∧
    okOrTimed (DS.executeRequest envD reqD).1 = true :=
  ⟨Anth.execA_okOrTimed envA reqA hkA hsA, DS.execD_okOrTimed envD reqD hkD⟩

/-- Witness for claim C6 at the down-vendor fixtures. -/
theorem claim_c6_witness :
    keyOnlyReq.apiKey ≠ "" ∧
    (Anth.buildSetup downEnvA keyOnlyReq initSt).1.isOk = true ∧
    (okOrTimed (Anth.executeRequest downEnvA keyOnlyReq).1 = true ∧
     okOrTimed (DS.executeRequest downEnvD keyOnlyReq).1 = true) :=
  ⟨by decide, rfl,
   claim_c6 downEnvA keyOnlyReq downEnvD keyOnlyReq (by decide) rfl (by decide)⟩

/-- Counterexample to claim C7 as stated: for the schema `(score: number)`
the instruction block never contains the unquoted template text
`"score": 0` - the placeholders are the *strings* `'0'`, `'"value"'`, ...,
so `JSON.stringify` renders the number placeholder quoted. -/
theorem claim_c7_cex :
    strContains (Anth.buildSchemaInstructions scoreSchema) "\"score\": 0" = false :=
  rfl

/-- Claim C7, amended: for the schema `(score: number)` the instruction
block contains the template rendered by `JSON.stringify(obj, null, 2)` with
the *quoted* placeholder - the literal span `\x7b\n  "score": "0"\n\x7d` -
followed by the field-description listing and the prohibitions on extra
text, array wrapping and undeclared fields; the block is appended to the
system prompt of the payload. -/
theorem claim_c7 :
    strContains (Anth.buildSchemaInstructions scoreSchema)
      "\x7b\n  \"score\": \"0\"\n\x7d" = true ∧
    strContains (Anth.buildSchemaInstructions scoreSchema)
      "Field descriptions:\nscore (number)" = true ∧
    strContains (Anth.buildSchemaInstructions scoreSchema)
      "2. DO NOT include any explanatory text before or after the JSON" = true ∧
    strContains (Anth.buildSchemaInstructions scoreSchema)
      "3. DO NOT wrap the response in an array" = true ∧
    strContains (Anth.buildSchemaInstructions scoreSchema)
      "4. DO NOT add any fields not specified in the schema" = true ∧
    (match (Anth.buildSetup jsonTextEnvA scoreReqA initSt).1 with
     | .ok setup => setup.payload.system
     | .error _ => "") = "S" ++ Anth.buildSchemaInstructions scoreSchema :=
  ⟨rfl, rfl, rfl, rfl, rfl, rfl⟩

/-- Counterexample to claim C8 as stated: the Deepseek adapter performs no
brace extraction at all - content carrying both braces with surrounding
text is returned verbatim (only fence stripping and trimming happen). -/
theorem claim_c8_cex :
    contentOfD (DS.executeRequest jsonTextEnvD keyOnlyReq).1 =
      some "junk \x7b\"score\": 4\x7d junk" ∧
    strContains "junk \x7b\"score\": 4\x7d junk" "\x7b" = true ∧
    strContains "junk \x7b\"score\": 4\x7d junk" "\x7d" = true :=
  ⟨rfl, rfl, rfl⟩

/-- Claim C8, amended: the *Anthropic* adapter replaces content that
carries both braces with the span from the first `\x7b` to the last `\x7d`
(shown in general for brace-free surroundings, and end to end on the
`junk \x7b"score": 4\x7d junk` fixture), and leaves content unchanged when
the scan fails (`\x7d\x7b` has no such span); the Deepseek adapter performs
no brace extraction and returns such content verbatim. -/
theorem claim_c8 (pre s post : String)
    (hpre1 : strHasChar pre '{' = false) (hpre2 : strHasChar pre '}' = false)
    (hpost1 : strHasChar post '{' = false) (hpost2 : strHasChar post '}' = false)
    (hhead : s.data.head? = some '{') (hlast : s.data.getLast? = some '}') :
    Anth.extractJson (pre ++ s ++ post) = s ∧
    contentOfA (Anth.executeRequest jsonTextEnvA keyOnlyReq).1 =
      some "\x7b\"score\": 4\x7d" ∧
    Anth.extractJson "\x7d\x7b" = "\x7d\x7b" ∧
    contentOfD (DS.executeRequest jsonTextEnvD keyOnlyReq).1 =
      some "junk \x7b\"score\": 4\x7d junk" :=
  ⟨extractJson_isolates pre s post hpre1 hpre2 hpost1 hpost2 hhead hlast, rfl, rfl, rfl⟩

/-- Witness for claim C8 at `junk \x7b"score": 4\x7d junk`. -/
theorem claim_c8_witness :
    strHasChar "junk " '{' = false ∧
    strHasChar "junk " '}' = false ∧
    strHasChar " junk" '{' = false ∧
    strHasChar " junk" '}' = false ∧
    ("\x7b\"score\": 4\x7d" : String).data.head? = some '{' ∧
    ("\x7b\"score\": 4\x7d" : String).data.getLast? = some '}' ∧
    (Anth.extractJson ("junk " ++ "\x7b\"score\": 4\x7d" ++ " junk") =
       "\x7b\"score\": 4\x7d" ∧
     contentOfA (Anth.executeRequest jsonTextEnvA keyOnlyReq).1 =
       some "\x7b\"score\": 4\x7d" ∧
     Anth.extractJson "\x7d\x7b" = "\x7d\x7b" ∧
     contentOfD (DS.executeRequest jsonTextEnvD keyOnlyReq).1 =
       some "junk \x7b\"score\": 4\x7d junk") :=
  ⟨rfl, rfl, rfl, rfl, rfl, rfl,
   claim_c8 "junk " "\x7b\"score\": 4\x7d" " junk" rfl rfl rfl rfl rfl rfl⟩

/-- Counterexample to claim C9 as stated: the Deepseek envelope reports the
request's model (`deepseek-v3`) while every payload actually sent to the
vendor carried the hardcoded `deepseek-chat`. -/
theorem claim_c9_cex :
    modelOfD (DS.executeRequest textEnvD modelReqD).1 = some (some "deepseek-v3") ∧
    (DS.executeRequest textEnvD modelReqD).2.calls.map (fun p => p.model) =
      ["deepseek-chat"] :=
  ⟨rfl, rfl⟩

/-- Claim C9, amended: on success the Anthropic envelope's model equals the
model of every payload sent (both are `request.model || default`); the
Deepseek envelope's model is `request.model` while every payload sent
carries the hardcoded `deepseek-chat`, so the two agree only when the
request asked for `deepseek-chat`. -/
theorem claim_c9 (envA : Anth.Env) (reqA : Req) (envD : DS.Env) (reqD : Req) :
    (match Anth.executeRequest envA reqA with
     | (.ok envl, stf) => ∀ q ∈ stf.calls, q.model = envl.model
     | (.error _, _) => True) ∧
    (match DS.executeRequest envD reqD with
     | (.ok envl, stf) =>
       envl.model = reqD.model ∧ ∀ q ∈ stf.calls, q.model = "deepseek-chat"
     | (.error _, _) => True) :=
  ⟨Anth.execA_model envA reqA, DS.execD_model envD reqD⟩

/-- Counterexample to claim C10 as stated: the fence stripping is one global
regex pass, so backtick runs assembled from the removed pieces survive -
the returned Deepseek content `\x60\x60\x60\x60` still contains the fence
marker. -/
theorem claim_c10_cex :
    contentOfD (DS.executeRequest fencesEnvD keyOnlyReq).1 = some "````" ∧
    strContains "````" "```" = true :=
  ⟨rfl, rfl⟩

/-- Claim C10, amended: every content string a Deepseek envelope returns is
the single-pass cleanup `cleanContent` of some vendor string (so one round
of `\x60\x60\x60json` / `\x60\x60\x60` removal plus trim was applied, both
to the initial response and to in-loop updates), and on well-formed fenced
blocks this does remove the fences; but the pass is not idempotent, so the
result can still contain a fence marker. -/
theorem claim_c10 (envD : DS.Env) (reqD : Req) :
    (match DS.executeRequest envD reqD with
     | (.ok envl, _) => ∃ s, envl.content = DS.cleanContent s
     | (.error _, _) => True) ∧
    DS.cleanContent "```json\n\x7b\"a\":1\x7d\n```" = "\x7b\"a\":1\x7d" ∧
    contentOfD (DS.executeRequest fencedEnvD keyOnlyReq).1 = some "\x7b\"a\":1\x7d" ∧
    contentOfD (DS.executeRequest fencedLoopEnvD toolLoopReqD).1 =
      some "\x7b\"a\":1\x7d" :=
  ⟨DS.execD_content envD reqD, rfl, rfl, rfl⟩
